import Mathlib

/-!
# Verification of the purdue-af-agent time/agent pipeline

This file gives a shallow embedding, in Lean 4, of the core of the
`purdue-af-agent` repository: the deterministic time-utility library
(`src/app/tools.py`, `src/app/utils.py`), the tool-execution and routing
logic of the agent loop (`src/app/agent.py`), the state/output schemas
(`src/app/schemas.py`), and the non-streaming query payload
(`src/app/main.py`), together with theorems settling the specification
claims about them.

Modelling conventions:

* Python `datetime` objects are modelled by the `PyDateTime` structure of
  calendar fields plus an optional fixed UTC offset in minutes.  The
  configured application timezone (`settings.timezone`) is modelled as a
  fixed UTC offset together with an abbreviation (structure `Tz`); daylight
  saving transitions of a region zone are outside the model.
* Machine integers are `Nat`/`Int` (Python integers are unbounded).
* Python exceptions are modelled with `Except PyErr`.
* Strings are processed through their underlying character lists.
-/

/-- Errors a modelled Python computation can raise. -/
inductive PyErr where
  /-- `ValueError` raised by `datetime.fromisoformat` / `datetime.replace`. -/
  | valueError (msg : String)
  /-- `OverflowError` raised when a datetime result falls outside years 1..9999. -/
  | overflowError
  deriving Repr, DecidableEq

/-! ## Proleptic Gregorian calendar (the calendar of Python `datetime`)

The day-number conversions below follow the standard civil-calendar
algorithms on a March-based year (month 3 is the first month of the shifted
year), with `sdays 0 = 0000-03-01`.  They model the conversions that
`datetime.toordinal` / `datetime.fromordinal` perform inside Python's
`datetime` arithmetic; `pyOrdinal = sdays - 305` so that `0001-01-01` has
ordinal 1, exactly as in CPython. -/

/-- Leap-year rule of the proleptic Gregorian calendar, as used by
Python `datetime`. -/
def isLeapYear (y : Nat) : Bool :=
  (y % 4 == 0 && y % 100 != 0) || y % 400 == 0

/-- Number of days in month `m` of year `y` (Python `calendar.monthrange`
semantics, used by `datetime` validation). -/
def daysInMonth (y m : Nat) : Nat :=
  if m = 2 then (if isLeapYear y then 29 else 28)
  else if m = 4 ∨ m = 6 ∨ m = 9 ∨ m = 11 then 30
  else 31

/-- Validity of a calendar date for Python `datetime`: years 1..9999,
months 1..12, days within the month. -/
def ValidYMD (y m d : Nat) : Prop :=
  1 ≤ y ∧ y ≤ 9999 ∧ 1 ≤ m ∧ m ≤ 12 ∧ 1 ≤ d ∧ d ≤ daysInMonth y m

instance (y m d : Nat) : Decidable (ValidYMD y m d) := by
  unfold ValidYMD; infer_instance

/-- Shifted month index: March ↦ 0, …, December ↦ 9, January ↦ 10, February ↦ 11. -/
def mpOfMonth (m : Nat) : Nat := if 2 < m then m - 3 else m + 9

/-- Inverse of `mpOfMonth`. -/
def monthOfMp (mp : Nat) : Nat := if mp < 10 then mp + 3 else mp - 9

/-- Day of the shifted (March-based) year, 0-based, for shifted month `mp`
and day-of-month `d`. -/
def doyOfMpD (mp d : Nat) : Nat := (153 * mp + 2) / 5 + d - 1

/-- Number of days before shifted year `yoe` since the start of an era
(a 400-year cycle starting on a March 1). -/
def yearStart (yoe : Nat) : Nat := 365 * yoe + yoe / 4 - yoe / 100 + yoe / 400

/-- Recover the shifted year within an era from a day-of-era. -/
def yoeOfDoe (doe : Nat) : Nat :=
  (doe - doe / 1460 + doe / 36524 - doe / 146096) / 365

/-- Day number of a calendar date, counted from `0000-03-01 = 0`. -/
def sdaysOfYMD (y m d : Nat) : Nat :=
  let yv := y - (if m ≤ 2 then 1 else 0)
  146097 * (yv / 400) + yearStart (yv % 400) + doyOfMpD (mpOfMonth m) d

/-- Calendar date of a day number (inverse of `sdaysOfYMD`). -/
def ymdOfSdays (s : Nat) : Nat × Nat × Nat :=
  let doe := s % 146097
  let yoe := yoeOfDoe doe
  let doy := doe - yearStart yoe
  let mp := (5 * doy + 2) / 153
  let d := doy - (153 * mp + 2) / 5 + 1
  let m := monthOfMp mp
  (s / 146097 * 400 + yoe + (if m ≤ 2 then 1 else 0), m, d)

/-- Day number of `0001-01-01` (Python ordinal 1). -/
def sdaysMin : Nat := 306

/-- Day number of `9999-12-31` (Python ordinal 3652059). -/
def sdaysMax : Nat := 3652364

/-! ### Bounded checking infrastructure -/

/-- Check a boolean predicate on every point of `[lo, lo+n)`, by binary
splitting (so that kernel evaluation stays shallow). -/
def chkRange (f : Nat → Bool) : Nat → Nat → Nat → Bool
  | 0, _, n => n == 0
  | fuel+1, lo, n =>
    if n = 0 then true
    else if n = 1 then f lo
    else chkRange f fuel lo (n / 2) && chkRange f fuel (lo + n / 2) (n - n / 2)

theorem chkRange_sound (f : Nat → Bool) :
    ∀ (fuel lo n : Nat), chkRange f fuel lo n = true →
      ∀ i, lo ≤ i → i < lo + n → f i = true := by
  intro fuel
  induction fuel with
  | zero =>
    intro lo n h i h1 h2
    simp only [chkRange, beq_iff_eq] at h
    omega
  | succ fuel ih =>
    intro lo n h i h1 h2
    simp only [chkRange] at h
    by_cases h0 : n = 0
    · omega
    · by_cases hone : n = 1
      · have : i = lo := by omega
        subst this
        simpa [h0, hone] using h
      · simp only [if_neg h0, if_neg hone, Bool.and_eq_true] at h
        by_cases hc : i < lo + n / 2
        · exact ih lo (n / 2) h.1 i h1 hc
        · exact ih (lo + n / 2) (n - n / 2) h.2 i (by omega) (by omega)

/-- Length of shifted month `mp` (February, `mp = 11`, gets its leap-maximum 29). -/
def marchLen (mp : Nat) : Nat :=
  if mp = 1 ∨ mp = 3 ∨ mp = 6 ∨ mp = 8 then 30 else if mp = 11 then 29 else 31

/-- Per-shifted-year boundary facts: `yoeOfDoe` is exact at the first and
last day of every shifted year, and the length of shifted year `yoe`
matches the leap rule of calendar year `yoe + 1`. -/
def bcheckYoe (yoe : Nat) : Bool :=
  (yoeOfDoe (yearStart yoe) == yoe) &&
  (yoe == 0 || yoeOfDoe (yearStart yoe - 1) + 1 == yoe) &&
  ((yearStart (yoe + 1) - yearStart yoe) == if isLeapYear (yoe + 1) then 366 else 365)

/-- Per-day-of-year facts: the month/day extraction of `ymdOfSdays` is
exact and bounded for every `doy < 366`. -/
def bcheckDoy (doy : Nat) : Bool :=
  let mp := (5 * doy + 2) / 153
  let base := (153 * mp + 2) / 5
  let d := doy - base + 1
  let m := monthOfMp mp
  decide (mp < 12) && decide (base ≤ doy) && (doyOfMpD mp d == doy) &&
  (decide (306 ≤ doy) == decide (10 ≤ mp)) &&
  decide (1 ≤ m) && decide (m ≤ 12) && (mpOfMonth m == mp) &&
  (decide (m ≤ 2) == decide (10 ≤ mp)) &&
  (decide (m = 2) == decide (mp = 11)) &&
  decide (1 ≤ d) && decide (d ≤ marchLen mp) &&
  (decide (doy = 365) == decide (mp = 11 ∧ d = 29))

/-- Per-(shifted month, day) facts: `doyOfMpD` round-trips for every valid
pair; index `i < 372` encodes `mp = i / 31`, `d = i % 31 + 1`. -/
def bcheckMpD (i : Nat) : Bool :=
  let mp := i / 31
  let d := i % 31 + 1
  if marchLen mp < d then true
  else
    let doy := doyOfMpD mp d
    ((5 * doy + 2) / 153 == mp) && (doy - (153 * mp + 2) / 5 + 1 == d) &&
    decide (doy < 366) && (decide (306 ≤ doy) == decide (10 ≤ mp)) &&
    (decide (doy = 365) == decide (mp = 11 ∧ d = 29))

set_option maxHeartbeats 1000000 in
theorem bcheckYoe_all : chkRange bcheckYoe 16 0 400 = true := by rfl

set_option maxHeartbeats 1000000 in
theorem bcheckDoy_all : chkRange bcheckDoy 16 0 366 = true := by rfl

set_option maxHeartbeats 1000000 in
theorem bcheckMpD_all : chkRange bcheckMpD 16 0 372 = true := by rfl

theorem yoeOfDoe_mono : Monotone yoeOfDoe := by
  apply monotone_nat_of_le_succ
  intro n
  unfold yoeOfDoe
  apply Nat.div_le_div_right
  omega

theorem yearStart_mono : Monotone yearStart := by
  apply monotone_nat_of_le_succ
  intro n
  unfold yearStart
  omega

theorem yearStart_le_add_366 (yoe : Nat) :
    365 ≤ yearStart (yoe + 1) - yearStart yoe ∧
    yearStart (yoe + 1) - yearStart yoe ≤ 366 := by
  unfold yearStart
  omega

theorem isLeapYear_mod (k r : Nat) : isLeapYear (k * 400 + r) = isLeapYear r := by
  have h4 : (k * 400 + r) % 4 = r % 4 := by omega
  have h100 : (k * 400 + r) % 100 = r % 100 := by omega
  have h400 : (k * 400 + r) % 400 = r % 400 := by omega
  simp [isLeapYear, h4, h100, h400]

theorem yearStart_0 : yearStart 0 = 0 := by rfl

theorem yearStart_1 : yearStart 1 = 365 := by rfl

theorem yearStart_398 : yearStart 398 = 145366 := by rfl

theorem yearStart_399 : yearStart 399 = 145731 := by rfl

theorem yearStart_400 : yearStart 400 = 146097 := by rfl

theorem yoeOfDoe_146096 : yoeOfDoe 146096 = 399 := by rfl

theorem bcheckYoe_spec (yoe : Nat) (h : yoe < 400) :
    yoeOfDoe (yearStart yoe) = yoe ∧
    (1 ≤ yoe → yoeOfDoe (yearStart yoe - 1) + 1 = yoe) ∧
    yearStart (yoe + 1) - yearStart yoe =
      (if isLeapYear (yoe + 1) then 366 else 365) := by
  have hc := chkRange_sound bcheckYoe 16 0 400 bcheckYoe_all yoe (Nat.zero_le _) (by omega)
  simp only [bcheckYoe, Bool.and_eq_true, Bool.or_eq_true, beq_iff_eq] at hc
  exact ⟨hc.1.1, fun h1 => by omega, hc.2⟩

theorem bcheckDoy_spec (doy : Nat) (h : doy < 366) :
    (5 * doy + 2) / 153 < 12 ∧
    (153 * ((5 * doy + 2) / 153) + 2) / 5 ≤ doy ∧
    doyOfMpD ((5 * doy + 2) / 153) (doy - (153 * ((5 * doy + 2) / 153) + 2) / 5 + 1) = doy ∧
    (306 ≤ doy ↔ 10 ≤ (5 * doy + 2) / 153) ∧
    1 ≤ monthOfMp ((5 * doy + 2) / 153) ∧
    monthOfMp ((5 * doy + 2) / 153) ≤ 12 ∧
    mpOfMonth (monthOfMp ((5 * doy + 2) / 153)) = (5 * doy + 2) / 153 ∧
    (monthOfMp ((5 * doy + 2) / 153) ≤ 2 ↔ 10 ≤ (5 * doy + 2) / 153) ∧
    (monthOfMp ((5 * doy + 2) / 153) = 2 ↔ (5 * doy + 2) / 153 = 11) ∧
    1 ≤ doy - (153 * ((5 * doy + 2) / 153) + 2) / 5 + 1 ∧
    doy - (153 * ((5 * doy + 2) / 153) + 2) / 5 + 1 ≤ marchLen ((5 * doy + 2) / 153) ∧
    (doy = 365 ↔
      ((5 * doy + 2) / 153 = 11 ∧ doy - (153 * ((5 * doy + 2) / 153) + 2) / 5 + 1 = 29)) := by
  have hc := chkRange_sound bcheckDoy 16 0 366 bcheckDoy_all doy (Nat.zero_le _) (by omega)
  simp only [bcheckDoy, Bool.and_eq_true, beq_iff_eq, decide_eq_true_eq,
    decide_eq_decide] at hc
  tauto

theorem bcheckMpD_spec (mp d : Nat) (hmp : mp < 12) (hd1 : 1 ≤ d)
    (hd2 : d ≤ marchLen mp) :
    (5 * doyOfMpD mp d + 2) / 153 = mp ∧
    doyOfMpD mp d - (153 * mp + 2) / 5 + 1 = d ∧
    doyOfMpD mp d < 366 ∧
    (306 ≤ doyOfMpD mp d ↔ 10 ≤ mp) ∧
    (doyOfMpD mp d = 365 ↔ (mp = 11 ∧ d = 29)) := by
  have hlen : marchLen mp ≤ 31 := by
    interval_cases mp <;> simp [marchLen]
  have hi : mp * 31 + (d - 1) < 372 := by omega
  have hdiv : (mp * 31 + (d - 1)) / 31 = mp := by omega
  have hmod : (mp * 31 + (d - 1)) % 31 + 1 = d := by omega
  have hc := chkRange_sound bcheckMpD 16 0 372 bcheckMpD_all (mp * 31 + (d - 1))
    (Nat.zero_le _) (by omega)
  simp only [bcheckMpD] at hc
  rw [hdiv, hmod] at hc
  rw [if_neg (by omega)] at hc
  simp only [Bool.and_eq_true, beq_iff_eq, decide_eq_true_eq, decide_eq_decide] at hc
  tauto

theorem yoeOfDoe_correct (doe : Nat) (h : doe < 146097) :
    yoeOfDoe doe < 400 ∧ yearStart (yoeOfDoe doe) ≤ doe ∧
    doe < yearStart (yoeOfDoe doe + 1) := by
  have hv : yoeOfDoe doe ≤ 399 := by
    have h9 := yoeOfDoe_146096
    have := yoeOfDoe_mono (show doe ≤ 146096 by omega)
    omega
  refine ⟨by omega, ?_, ?_⟩
  · by_contra hlt
    push_neg at hlt
    have h1 : 1 ≤ yoeOfDoe doe := by
      by_contra h0
      have : yoeOfDoe doe = 0 := by omega
      rw [this, yearStart_0] at hlt
      omega
    have hb := (bcheckYoe_spec (yoeOfDoe doe) (by omega)).2.1 h1
    have := yoeOfDoe_mono (show doe ≤ yearStart (yoeOfDoe doe) - 1 by omega)
    omega
  · by_contra hge
    push_neg at hge
    by_cases hy : yoeOfDoe doe + 1 < 400
    · have hb := (bcheckYoe_spec (yoeOfDoe doe + 1) hy).1
      have := yoeOfDoe_mono hge
      omega
    · have : yoeOfDoe doe = 399 := by omega
      rw [this, yearStart_400] at hge
      omega

theorem daysInMonth_eq_marchLen (y mp : Nat) (h : mp < 12) (h11 : mp ≠ 11) :
    daysInMonth y (monthOfMp mp) = marchLen mp := by
  interval_cases mp <;>
    first
      | exact absurd rfl h11
      | simp [monthOfMp, daysInMonth, marchLen]

set_option maxRecDepth 8000 in
theorem ymdOfSdays_spec (s : Nat) (h1 : sdaysMin ≤ s) (h2 : s ≤ sdaysMax) :
    ValidYMD (ymdOfSdays s).1 (ymdOfSdays s).2.1 (ymdOfSdays s).2.2 ∧
    sdaysOfYMD (ymdOfSdays s).1 (ymdOfSdays s).2.1 (ymdOfSdays s).2.2 = s := by
  have h1' : 306 ≤ s := h1
  have h2' : s ≤ 3652364 := h2
  have hdoe : s % 146097 < 146097 := Nat.mod_lt _ (by norm_num)
  obtain ⟨hy400, hylo, hyhi⟩ := yoeOfDoe_correct (s % 146097) hdoe
  simp only [ymdOfSdays]
  set doe := s % 146097 with hdoe_def
  set yoe := yoeOfDoe doe with hyoe_def
  set doy := doe - yearStart yoe with hdoy_def
  have hdoy366 : doy < 366 := by
    have := (yearStart_le_add_366 yoe).2
    omega
  obtain ⟨hmp12, hbase, hrecon, h306, hm1, hm12, hmpm, hm2a, hm2b, hd1, hdlen, h365⟩ :=
    bcheckDoy_spec doy hdoy366
  set mp := (5 * doy + 2) / 153 with hmp_def
  set d := doy - (153 * mp + 2) / 5 + 1 with hd_def
  set m := monthOfMp mp with hm_def
  set era := s / 146097 with hera_def
  have hsplit : 146097 * era + doe = s := Nat.div_add_mod s 146097
  have hera24 : era ≤ 24 := by omega
  have hdoe_sum : doe = yearStart yoe + doy := by omega
  have hlen := (bcheckYoe_spec yoe hy400).2.2
  by_cases hm2 : m ≤ 2
  · have hmp10 : 10 ≤ mp := hm2a.mp hm2
    have hdoy306 : 306 ≤ doy := h306.mpr hmp10
    simp only [if_pos hm2]
    have hy9999 : era * 400 + yoe + 1 ≤ 9999 := by
      by_contra hbig
      have he24 : era = 24 := by omega
      have hy399 : yoe = 399 := by omega
      rw [hy399, yearStart_399] at hdoe_sum
      omega
    have hdmax : d ≤ daysInMonth (era * 400 + yoe + 1) m := by
      by_cases hmp11 : mp = 11
      · have hm2' : m = 2 := hm2b.mpr hmp11
        by_cases hd29 : d = 29
        · have hdoy365 : doy = 365 := h365.mpr ⟨hmp11, hd29⟩
          have hleap : isLeapYear (yoe + 1) = true := by
            by_contra hnl
            rw [Bool.not_eq_true] at hnl
            rw [hnl] at hlen
            simp at hlen
            omega
          have hleapy : isLeapYear (era * 400 + yoe + 1) = true := by
            have := isLeapYear_mod era (yoe + 1)
            rw [show era * 400 + yoe + 1 = era * 400 + (yoe + 1) from by omega]
            rw [this, hleap]
          rw [hm2']
          simp [daysInMonth, hleapy]
          omega
        · have hd28 : d ≤ 28 := by
            have : marchLen mp = 29 := by rw [hmp11]; rfl
            omega
          rw [hm2']
          by_cases hL : isLeapYear (era * 400 + yoe + 1) <;>
            simp [daysInMonth, hL] <;> omega
      · have hmne2 : m ≠ 2 := fun hc => hmp11 (hm2b.mp hc)
        rw [hm_def, daysInMonth_eq_marchLen _ mp hmp12 hmp11]
        exact hdlen
    refine ⟨⟨by omega, hy9999, hm1, hm12, hd1, hdmax⟩, ?_⟩
    simp only [sdaysOfYMD]
    rw [if_pos hm2]
    have hyv : era * 400 + yoe + 1 - 1 = era * 400 + yoe := by omega
    rw [hyv]
    have hdiv : (era * 400 + yoe) / 400 = era := by omega
    have hmod : (era * 400 + yoe) % 400 = yoe := by omega
    rw [hdiv, hmod, hmpm, hrecon]
    omega
  · have hmp10 : ¬ 10 ≤ mp := fun hc => hm2 (hm2a.mpr hc)
    have hdoy305 : doy ≤ 305 := by
      by_contra hc
      exact hmp10 (h306.mp (by omega))
    simp only [if_neg hm2]
    have hy1 : 1 ≤ era * 400 + yoe := by
      by_contra hc
      have he0 : era = 0 := by omega
      have hyoe0 : yoe = 0 := by omega
      rw [hyoe0, yearStart_0] at hdoe_sum
      omega
    have hdmax : d ≤ daysInMonth (era * 400 + yoe) m := by
      have hmp11 : mp ≠ 11 := by omega
      rw [hm_def, daysInMonth_eq_marchLen _ mp hmp12 hmp11]
      exact hdlen
    refine ⟨⟨hy1, by omega, hm1, hm12, hd1, hdmax⟩, ?_⟩
    simp only [sdaysOfYMD]
    rw [if_neg hm2]
    have hyv : era * 400 + yoe + 0 - 0 = era * 400 + yoe := by omega
    rw [hyv]
    have hdiv : (era * 400 + yoe) / 400 = era := by omega
    have hmod : (era * 400 + yoe) % 400 = yoe := by omega
    rw [hdiv, hmod, hmpm, hrecon]
    omega

theorem mpOfMonth_facts (m : Nat) (h1 : 1 ≤ m) (h2 : m ≤ 12) :
    mpOfMonth m < 12 ∧ monthOfMp (mpOfMonth m) = m ∧
    (10 ≤ mpOfMonth m ↔ m ≤ 2) ∧ (mpOfMonth m = 11 ↔ m = 2) := by
  interval_cases m <;> decide

set_option maxRecDepth 8000 in
theorem sdaysOfYMD_spec (y m d : Nat) (hv : ValidYMD y m d) :
    sdaysMin ≤ sdaysOfYMD y m d ∧ sdaysOfYMD y m d ≤ sdaysMax ∧
    ymdOfSdays (sdaysOfYMD y m d) = (y, m, d) := by
  obtain ⟨hy1, hy2, hm1, hm2, hd1, hd2⟩ := hv
  obtain ⟨hmp12, hmoM, hmp10, hmp11⟩ := mpOfMonth_facts m hm1 hm2
  set mp := mpOfMonth m with hmp_def
  set yv := y - (if m ≤ 2 then 1 else 0) with hyv_def
  set era := yv / 400 with hera_def
  set yoe := yv % 400 with hyoe_def
  have hyoe400 : yoe < 400 := Nat.mod_lt _ (by norm_num)
  have hsplit : 400 * era + yoe = yv := Nat.div_add_mod yv 400
  have hdlen : d ≤ marchLen mp := by
    by_cases hm2' : m = 2
    · have hmp11' : mp = 11 := hmp11.mpr hm2'
      rw [hmp11']
      rw [hm2'] at hd2
      by_cases hL : isLeapYear y <;>
        simp [daysInMonth, hL] at hd2 <;> simp [marchLen] <;> omega
    · have hne : mp ≠ 11 := fun hc => hm2' (hmp11.mp hc)
      rw [← hmoM, daysInMonth_eq_marchLen y mp hmp12 hne] at hd2
      exact hd2
  obtain ⟨hmprt, hdrt, hdoy366, hdoy306, hdoy365⟩ := bcheckMpD_spec mp d hmp12 hd1 hdlen
  set doy := doyOfMpD mp d with hdoy_def
  have hlen := (bcheckYoe_spec yoe hyoe400).2.2
  have hstart := (bcheckYoe_spec yoe hyoe400).1
  have hmono1 : yearStart yoe ≤ yearStart (yoe + 1) := yearStart_mono (by omega)
  have hylen : doy < yearStart (yoe + 1) - yearStart yoe := by
    by_cases h365' : doy = 365
    · obtain ⟨hmp11', hd29⟩ := hdoy365.mp h365'
      have hm2'' : m = 2 := hmp11.mp hmp11'
      have hmle : m ≤ 2 := by omega
      have hyv1 : yv = y - 1 := by rw [hyv_def, if_pos hmle]
      have hyform : y = era * 400 + yoe + 1 := by omega
      have hleapy : isLeapYear y = true := by
        by_cases hL : isLeapYear y
        · exact hL
        · rw [hm2''] at hd2
          simp [daysInMonth, hL] at hd2
          omega
      have hleap1 : isLeapYear (yoe + 1) = true := by
        have hmod := isLeapYear_mod era (yoe + 1)
        rw [show era * 400 + (yoe + 1) = y from by omega] at hmod
        rw [← hmod]
        exact hleapy
      rw [hleap1] at hlen
      simp at hlen
      omega
    · have := (yearStart_le_add_366 yoe).1
      omega
  have hmono400 : yearStart (yoe + 1) ≤ 146097 := by
    have := yearStart_mono (show yoe + 1 ≤ 400 by omega)
    rw [yearStart_400] at this
    exact this
  have hdoeB : yearStart yoe + doy < 146097 := by omega
  have hs_def : sdaysOfYMD y m d = 146097 * era + (yearStart yoe + doy) := by
    simp only [sdaysOfYMD]
    rw [← hyv_def, ← hmp_def, ← hdoy_def, ← hera_def, ← hyoe_def]
    omega
  have hysmall : yearStart yoe ≤ 145731 := by
    have := yearStart_mono (show yoe ≤ 399 by omega)
    rw [yearStart_399] at this
    exact this
  refine ⟨?_, ?_, ?_⟩
  · rw [hs_def]
    by_cases hm2' : m ≤ 2
    · have h10 : 10 ≤ mp := hmp10.mpr hm2'
      have h306 : 306 ≤ doy := hdoy306.mpr h10
      have : sdaysMin = 306 := rfl
      omega
    · have hyv1 : yv = y := by
        rw [hyv_def, if_neg hm2']
        omega
      by_cases he : 1 ≤ era
      · have : sdaysMin = 306 := rfl
        omega
      · have hyoe1 : 1 ≤ yoe := by omega
        have := yearStart_mono hyoe1
        rw [yearStart_1] at this
        have hmin : sdaysMin = 306 := rfl
        omega
  · rw [hs_def]
    have hmax : sdaysMax = 3652364 := rfl
    by_cases hm2' : m ≤ 2
    · have hyv1 : yv = y - 1 := by rw [hyv_def, if_pos hm2']
      by_cases he : era = 24
      · have hyoe398 : yoe ≤ 398 := by omega
        have := yearStart_mono hyoe398
        rw [yearStart_398] at this
        omega
      · have : era ≤ 23 := by omega
        omega
    · have hyv1 : yv = y := by
        rw [hyv_def, if_neg hm2']
        omega
      have h10 : ¬ 10 ≤ mp := fun hc => hm2' (hmp10.mp hc)
      have h306 : doy ≤ 305 := by
        by_contra hc
        exact h10 (hdoy306.mp (by omega))
      have hera24 : era ≤ 24 := by omega
      omega
  · have hsdiv : (146097 * era + (yearStart yoe + doy)) / 146097 = era := by omega
    have hsmod : (146097 * era + (yearStart yoe + doy)) % 146097 =
        yearStart yoe + doy := by omega
    have hyoe_rec : yoeOfDoe (yearStart yoe + doy) = yoe := by
      have hlow : yoe ≤ yoeOfDoe (yearStart yoe + doy) := by
        have := yoeOfDoe_mono (show yearStart yoe ≤ yearStart yoe + doy by omega)
        omega
      have hup : yoeOfDoe (yearStart yoe + doy) ≤ yoe := by
        by_cases hy399 : yoe = 399
        · have h9 := yoeOfDoe_146096
          have hm' := yoeOfDoe_mono
            (show yearStart yoe + doy ≤ 146096 by omega)
          omega
        · have hb := (bcheckYoe_spec (yoe + 1) (by omega)).2.1 (by omega)
          have := yoeOfDoe_mono
            (show yearStart yoe + doy ≤ yearStart (yoe + 1) - 1 by omega)
          omega
      omega
    rw [hs_def]
    simp only [ymdOfSdays]
    rw [hsdiv, hsmod, hyoe_rec]
    rw [show yearStart yoe + doy - yearStart yoe = doy from by omega]
    rw [hmprt, hdrt, hmoM]
    have hyeq : era * 400 + yoe + (if m ≤ 2 then 1 else 0) = y := by
      by_cases hm2' : m ≤ 2
      · have hyv1 : yv = y - 1 := by rw [hyv_def, if_pos hm2']
        rw [if_pos hm2']
        omega
      · have hyv1 : yv = y := by
          rw [hyv_def, if_neg hm2']
          omega
        rw [if_neg hm2']
        omega
    rw [hyeq]

/-! ## Python `datetime` model

A `PyDateTime` is the tuple of calendar/time fields of a Python `datetime`,
together with its timezone modelled as an optional fixed UTC offset in
minutes (`none` = naive).  The configured application timezone
(`settings.timezone`, read once at startup in `src/app/config.py`) is
modelled by `Tz`: a fixed offset plus the abbreviation that
`strftime("%Z")` prints for it. -/

structure PyDateTime where
  year : Nat
  month : Nat
  day : Nat
  hour : Nat
  minute : Nat
  second : Nat
  microsecond : Nat
  offsetMinutes : Option Int
  deriving Repr, DecidableEq

/-- The configured application timezone, as a fixed UTC offset. -/
structure Tz where
  offsetMinutes : Int
  tzAbbrev : String
  deriving Repr, DecidableEq

/-- Field validity of a Python `datetime`. -/
def ValidDT (dt : PyDateTime) : Prop :=
  ValidYMD dt.year dt.month dt.day ∧ dt.hour < 24 ∧ dt.minute < 60 ∧
  dt.second < 60 ∧ dt.microsecond < 1000000

instance (dt : PyDateTime) : Decidable (ValidDT dt) := by
  unfold ValidDT; infer_instance

/-- Microseconds per day. -/
def usPerDay : Nat := 86400000000

/-- Number of representable wall-clock microsecond values
(`datetime.min` through `datetime.max`). -/
def totalUs : Nat := (sdaysMax - sdaysMin + 1) * usPerDay

/-- Wall-clock microseconds of a datetime since `0001-01-01T00:00:00`
(the quantity Python's `datetime` arithmetic works with, via
`toordinal`/`fromordinal`). -/
def wallMicros (dt : PyDateTime) : Nat :=
  (sdaysOfYMD dt.year dt.month dt.day - sdaysMin) * usPerDay +
    (((dt.hour * 60 + dt.minute) * 60 + dt.second) * 1000000 + dt.microsecond)

/-- Datetime with the given wall-clock microseconds and timezone
(inverse of `wallMicros`, Python `fromordinal` plus time-of-day split). -/
def dtOfMicros (M : Nat) (off : Option Int) : PyDateTime :=
  let t := ymdOfSdays (M / usPerDay + sdaysMin)
  let tod := M % usPerDay
  { year := t.1, month := t.2.1, day := t.2.2,
    hour := tod / 3600000000, minute := tod / 60000000 % 60,
    second := tod / 1000000 % 60, microsecond := tod % 1000000,
    offsetMinutes := off }

theorem usPerDay_val : usPerDay = 86400000000 := rfl

theorem totalUs_val : totalUs = 3652059 * 86400000000 := rfl

theorem sdaysMin_val : sdaysMin = 306 := rfl

theorem sdaysMax_val : sdaysMax = 3652364 := rfl

theorem wallMicros_lt (dt : PyDateTime) (h : ValidDT dt) :
    wallMicros dt < totalUs := by
  obtain ⟨hymd, hh, hmi, hs, hus⟩ := h
  obtain ⟨hlo, hhi, _⟩ := sdaysOfYMD_spec dt.year dt.month dt.day hymd
  unfold wallMicros
  rw [usPerDay_val] at *
  rw [totalUs_val]
  have h1 : sdaysOfYMD dt.year dt.month dt.day - sdaysMin ≤ 3652058 := by
    rw [sdaysMin_val]
    rw [sdaysMax_val] at hhi
    omega
  have h2 : ((dt.hour * 60 + dt.minute) * 60 + dt.second) * 1000000 +
      dt.microsecond < 86400000000 := by omega
  calc (sdaysOfYMD dt.year dt.month dt.day - sdaysMin) * 86400000000 +
        (((dt.hour * 60 + dt.minute) * 60 + dt.second) * 1000000 + dt.microsecond)
      < (sdaysOfYMD dt.year dt.month dt.day - sdaysMin) * 86400000000 +
        86400000000 := by omega
    _ ≤ 3652058 * 86400000000 + 86400000000 := by
        have := Nat.mul_le_mul_right 86400000000 h1
        omega
    _ = 3652059 * 86400000000 := by norm_num

theorem dtOfMicros_spec (M : Nat) (hM : M < totalUs) (off : Option Int) :
    ValidDT (dtOfMicros M off) ∧ wallMicros (dtOfMicros M off) = M ∧
    (dtOfMicros M off).offsetMinutes = off := by
  have hday : M / usPerDay ≤ 3652058 := by
    rw [totalUs_val] at hM
    rw [usPerDay_val]
    omega
  have hlo : sdaysMin ≤ M / usPerDay + sdaysMin := Nat.le_add_left _ _
  have hhi : M / usPerDay + sdaysMin ≤ sdaysMax := by
    have h1 : sdaysMin = 306 := rfl
    have h2 : sdaysMax = 3652364 := rfl
    omega
  obtain ⟨hv, hinv⟩ := ymdOfSdays_spec (M / usPerDay + sdaysMin) hlo hhi
  have htod : M % usPerDay < usPerDay :=
    Nat.mod_lt _ (by rw [usPerDay_val]; norm_num)
  rw [usPerDay_val] at htod
  refine ⟨⟨hv, ?_, ?_, ?_, ?_⟩, ?_, rfl⟩
  · show M % usPerDay / 3600000000 < 24
    rw [usPerDay_val]
    omega
  · show M % usPerDay / 60000000 % 60 < 60
    omega
  · show M % usPerDay / 1000000 % 60 < 60
    omega
  · show M % usPerDay % 1000000 < 1000000
    omega
  · show (sdaysOfYMD (ymdOfSdays (M / usPerDay + sdaysMin)).1
        (ymdOfSdays (M / usPerDay + sdaysMin)).2.1
        (ymdOfSdays (M / usPerDay + sdaysMin)).2.2 - sdaysMin) * usPerDay +
        (((M % usPerDay / 3600000000 * 60 + M % usPerDay / 60000000 % 60) * 60 +
          M % usPerDay / 1000000 % 60) * 1000000 + M % usPerDay % 1000000) = M
    rw [hinv]
    rw [usPerDay_val] at *
    omega

theorem dtOfMicros_wallMicros (dt : PyDateTime) (h : ValidDT dt) :
    dtOfMicros (wallMicros dt) dt.offsetMinutes = dt := by
  obtain ⟨y, mo, d, hh, mi, ss, us, off⟩ := dt
  obtain ⟨hymd, hhh, hmi, hss, hus⟩ := h
  simp only at hymd hhh hmi hss hus
  obtain ⟨hlo, hhi, hinv⟩ := sdaysOfYMD_spec y mo d hymd
  have hdiv : wallMicros ⟨y, mo, d, hh, mi, ss, us, off⟩ / usPerDay
      = sdaysOfYMD y mo d - sdaysMin := by
    unfold wallMicros
    simp only
    rw [usPerDay_val]
    omega
  have hmod : wallMicros ⟨y, mo, d, hh, mi, ss, us, off⟩ % usPerDay
      = ((hh * 60 + mi) * 60 + ss) * 1000000 + us := by
    unfold wallMicros
    simp only
    rw [usPerDay_val]
    omega
  simp only [dtOfMicros]
  rw [hdiv, hmod]
  rw [show sdaysOfYMD y mo d - sdaysMin + sdaysMin = sdaysOfYMD y mo d from by
    have : sdaysMin = 306 := rfl
    omega]
  rw [hinv]
  simp only [PyDateTime.mk.injEq]
  refine ⟨trivial, trivial, trivial, by omega, by omega, by omega, by omega, trivial⟩

/-! ## ISO-8601 rendering and parsing

`pyIsoformatMicro` models `datetime.isoformat(timespec="microseconds")`.
`pyFromisoformat` models the core grammar of Python 3.11+
`datetime.fromisoformat`: `YYYY-MM-DD`, optionally followed by a single
separator character and a time `HH[:MM[:SS[.|,ffffff]]]`, optionally
followed by a UTC offset `±HH[:MM]` / `±HHMM` (whole minutes; the
basic all-digit date/time forms and second-resolution offsets of the full
Python grammar are outside the model). -/

/-- The ASCII digit character for `k % 10`. -/
def digitChar (k : Nat) : Char := Char.ofNat (48 + k % 10)

def pad2 (n : Nat) : List Char := [digitChar (n / 10), digitChar n]

def pad4 (n : Nat) : List Char :=
  [digitChar (n / 1000), digitChar (n / 100), digitChar (n / 10), digitChar n]

def pad6 (n : Nat) : List Char :=
  [digitChar (n / 100000), digitChar (n / 10000), digitChar (n / 1000),
   digitChar (n / 100), digitChar (n / 10), digitChar n]

/-- Rendering of a fixed UTC offset as `±HH:MM` (as Python's
`datetime.isoformat` prints a whole-minute `utcoffset`). -/
def offsetChars (off : Int) : List Char :=
  (if off < 0 then '-' else '+') ::
    (pad2 (off.natAbs / 60) ++ (':' :: pad2 (off.natAbs % 60)))

/-- Character list of `datetime.isoformat(timespec="microseconds")`. -/
def isoChars (dt : PyDateTime) : List Char :=
  pad4 dt.year ++ ('-' :: (pad2 dt.month ++ ('-' :: (pad2 dt.day ++
    ('T' :: (pad2 dt.hour ++ (':' :: (pad2 dt.minute ++ (':' :: (pad2 dt.second ++
    ('.' :: (pad6 dt.microsecond ++
      (match dt.offsetMinutes with
       | none => []
       | some off => offsetChars off)))))))))))))

/-- `datetime.isoformat(timespec="microseconds")`. -/
def pyIsoformatMicro (dt : PyDateTime) : String := String.mk (isoChars dt)

/-- Numeric value of an ASCII digit character. -/
def digVal (c : Char) : Option Nat :=
  if c.isDigit then some (c.toNat - 48) else none

def read2 : List Char → Option (Nat × List Char)
  | c1 :: c2 :: rest =>
    match digVal c1, digVal c2 with
    | some a, some b => some (a * 10 + b, rest)
    | _, _ => none
  | _ => none

def read4 : List Char → Option (Nat × List Char)
  | c1 :: c2 :: c3 :: c4 :: rest =>
    match digVal c1, digVal c2, digVal c3, digVal c4 with
    | some a, some b, some c, some d => some (((a * 10 + b) * 10 + c) * 10 + d, rest)
    | _, _, _, _ => none
  | _ => none

/-- Read at most `fuel` digit characters, returning value, count and rest. -/
def readFracDigits : Nat → List Char → Nat → Nat → Nat × Nat × List Char
  | 0, cs, acc, cnt => (acc, cnt, cs)
  | fuel+1, cs, acc, cnt =>
    match cs with
    | [] => (acc, cnt, [])
    | c :: rest =>
      match digVal c with
      | some v => readFracDigits fuel rest (acc * 10 + v) (cnt + 1)
      | none => (acc, cnt, cs)

/-- Parse a 1..6 digit fraction into microseconds. -/
def parseFrac (cs : List Char) : Option (Nat × List Char) :=
  let r := readFracDigits 6 cs 0 0
  if r.2.1 = 0 then none
  else
    match r.2.2 with
    | c :: _ => if c.isDigit then none else some (r.1 * 10 ^ (6 - r.2.1), r.2.2)
    | [] => some (r.1 * 10 ^ (6 - r.2.1), [])

/-- Parse the magnitude of a UTC offset: `HH[:MM]` or `HHMM`, in minutes. -/
def parseOffsetTail (cs : List Char) : Option (Nat × List Char) :=
  match read2 cs with
  | none => none
  | some (h, rest) =>
    match rest with
    | ':' :: r2 =>
      match read2 r2 with
      | some (m, r3) => if m < 60 then some (h * 60 + m, r3) else none
      | none => none
    | c :: _ =>
      if c.isDigit then
        match read2 rest with
        | some (m, r3) => if m < 60 then some (h * 60 + m, r3) else none
        | none => none
      else some (h * 60, rest)
    | [] => some (h * 60, [])

/-- Parse a signed UTC offset; Python requires it strictly within ±24 h. -/
def parseOffset : List Char → Option (Int × List Char)
  | '+' :: r =>
    match parseOffsetTail r with
    | some (mag, rest) => if mag < 1440 then some ((mag : Int), rest) else none
    | none => none
  | '-' :: r =>
    match parseOffsetTail r with
    | some (mag, rest) => if mag < 1440 then some (-(mag : Int), rest) else none
    | none => none
  | _ => none

/-- Parse `HH[:MM[:SS[(.|,)ffffff]]]`. -/
def parseTimeChars (cs : List Char) : Option (Nat × Nat × Nat × Nat × List Char) :=
  match read2 cs with
  | none => none
  | some (h, r1) =>
    match r1 with
    | ':' :: r2 =>
      match read2 r2 with
      | none => none
      | some (mi, r3) =>
        match r3 with
        | ':' :: r4 =>
          match read2 r4 with
          | none => none
          | some (s, r5) =>
            match r5 with
            | '.' :: r6 =>
              match parseFrac r6 with
              | some (us, r7) => some (h, mi, s, us, r7)
              | none => none
            | ',' :: r6 =>
              match parseFrac r6 with
              | some (us, r7) => some (h, mi, s, us, r7)
              | none => none
            | _ => some (h, mi, s, 0, r5)
        | _ => some (h, mi, 0, 0, r3)
    | _ => some (h, 0, 0, 0, r1)

/-- Field validation performed by the `datetime` constructor. -/
def mkValidated (y mo d h mi s us : Nat) (off : Option Int) : Option PyDateTime :=
  if ValidYMD y mo d ∧ h ≤ 23 ∧ mi ≤ 59 ∧ s ≤ 59 ∧ us ≤ 999999 then
    some ⟨y, mo, d, h, mi, s, us, off⟩
  else none

/-- Model of Python 3.11+ `datetime.fromisoformat` (see section comment for
the supported subset). -/
def pyFromisoformat (cs : List Char) : Option PyDateTime :=
  match read4 cs with
  | none => none
  | some (y, r1) =>
    match r1 with
    | '-' :: r2 =>
      match read2 r2 with
      | none => none
      | some (mo, r3) =>
        match r3 with
        | '-' :: r4 =>
          match read2 r4 with
          | none => none
          | some (d, r5) =>
            match r5 with
            | [] => mkValidated y mo d 0 0 0 0 none
            | _ :: r6 =>
              match parseTimeChars r6 with
              | none => none
              | some (h, mi, s, us, r7) =>
                match r7 with
                | [] => mkValidated y mo d h mi s us none
                | _ =>
                  match parseOffset r7 with
                  | some (off, []) => mkValidated y mo d h mi s us (some off)
                  | _ => none
        | _ => none
    | _ => none

/-! ## Python string helpers -/

/-- Suffix after the first occurrence of `": "` (Python
`s.split(": ", 1)[-1]` when the separator occurs). -/
def afterFirstSep : List Char → Option (List Char)
  | [] => none
  | ':' :: ' ' :: rest => some rest
  | _ :: rest => afterFirstSep rest

/-- Suffix after the last occurrence of `": "` (Python
`s.split(": ")[-1]` when the separator occurs), scanning occurrences
left-to-right without overlap exactly as `str.split` does. -/
def afterLastSep : List Char → Option (List Char)
  | [] => none
  | ':' :: ' ' :: rest =>
    (match afterLastSep rest with
     | some r => some r
     | none => some rest)
  | _ :: rest => afterLastSep rest

/-- Python `str.replace("Z", "+00:00")` (all occurrences). -/
def replaceZ : List Char → List Char
  | [] => []
  | 'Z' :: rest => '+' :: '0' :: '0' :: ':' :: '0' :: '0' :: replaceZ rest
  | c :: rest => c :: replaceZ rest

/-- ASCII lower-casing of one character (Python `str.lower` restricted to
ASCII, which covers every unit keyword the code compares against). -/
def lowerChar (c : Char) : Char :=
  if 65 ≤ c.toNat ∧ c.toNat ≤ 90 then Char.ofNat (c.toNat + 32) else c

/-- Python `str.lower` (ASCII model). -/
def pyLower (s : String) : String := String.mk (s.data.map lowerChar)

/-- Python `str.rstrip(chars)`: drop trailing characters from the set. -/
def rstripChars (bad : List Char) (cs : List Char) : List Char :=
  (cs.reverse.dropWhile (fun c => bad.contains c)).reverse

/-- Python whitespace set used by `str.strip()` (ASCII part). -/
def pyWhitespace : List Char := [' ', '\t', '\n', '\r', '\x0b', '\x0c']

/-- Python `str.strip()` (ASCII whitespace model). -/
def pyStrip (s : String) : String :=
  String.mk (rstripChars pyWhitespace
    (s.data.dropWhile (fun c => pyWhitespace.contains c)))

/-- Decimal digits of `n`, most significant first (via a fuel argument,
`fuel ≥ n` suffices). -/
def natRepAux : Nat → Nat → List Char
  | 0, _ => []
  | fuel+1, n => if n < 10 then [digitChar n] else natRepAux fuel (n / 10) ++ [digitChar n]

/-- Decimal rendering of a natural number. -/
def natRep (n : Nat) : List Char := natRepAux (n + 1) n

/-- Decimal rendering of a Python integer (`f"{amount}"`). -/
def intRep (i : Int) : List Char :=
  if i < 0 then '-' :: natRep i.natAbs else natRep i.natAbs

def intRepStr (i : Int) : String := String.mk (intRep i)

/-! ## Python `datetime` operations used by the tools -/

/-- `datetime + timedelta` on an aware datetime: wall-clock shift by a
microsecond delta, `OverflowError` outside the representable range. -/
def dtAddMicros (dt : PyDateTime) (delta : Int) : Except PyErr PyDateTime :=
  if 0 ≤ (wallMicros dt : Int) + delta ∧ (wallMicros dt : Int) + delta < (totalUs : Int)
  then .ok (dtOfMicros ((wallMicros dt : Int) + delta).toNat dt.offsetMinutes)
  else .error .overflowError

/-- `datetime.astimezone(tz)` for fixed offsets: shift the wall clock by
the offset difference and re-tag. -/
def dtAstimezone (dt : PyDateTime) (target : Int) : Except PyErr PyDateTime :=
  match dt.offsetMinutes with
  | none => .error (.valueError "astimezone on naive datetime")
  | some off =>
    if 0 ≤ (wallMicros dt : Int) + (target - off) * 60000000 ∧
        (wallMicros dt : Int) + (target - off) * 60000000 < (totalUs : Int)
    then .ok (dtOfMicros ((wallMicros dt : Int) + (target - off) * 60000000).toNat
      (some target))
    else .error .overflowError

/-- `datetime.replace(year=newYear)`: re-validates the date, raising
`ValueError` when the year is out of range or the day does not exist in
the new year's month (Feb 29 on a non-leap year). -/
def dtReplaceYear (dt : PyDateTime) (newYear : Int) : Except PyErr PyDateTime :=
  if 1 ≤ newYear ∧ newYear ≤ 9999 ∧ dt.day ≤ daysInMonth newYear.toNat dt.month then
    .ok { dt with year := newYear.toNat }
  else .error (.valueError "replace: invalid date")

/-- `datetime.replace(year=newYear, day=28)` (the leap-day fallback of
`add_time_delta_tool`). -/
def dtReplaceYearDay28 (dt : PyDateTime) (newYear : Int) : Except PyErr PyDateTime :=
  if 1 ≤ newYear ∧ newYear ≤ 9999 ∧ 28 ≤ daysInMonth newYear.toNat dt.month then
    .ok { dt with year := newYear.toNat, day := 28 }
  else .error (.valueError "replace: invalid date")

/-! ## The time tools (`src/app/tools.py`) -/

/-- `_parse_to_timezone`: strip everything up to the first `": "`
(`time_str.split(": ", 1)[-1]`), replace `"Z"` by `"+00:00"`, parse with
`fromisoformat`, then attach the app timezone (naive input) or convert to
it (aware input). -/
def parse_to_timezone (tz : Tz) (timeStr : String) : Except PyErr PyDateTime :=
  match pyFromisoformat (replaceZ (match afterFirstSep timeStr.data with
    | some r => r
    | none => timeStr.data)) with
  | none => .error (.valueError "Invalid isoformat string")
  | some dt =>
    match dt.offsetMinutes with
    | none => .ok { dt with offsetMinutes := some tz.offsetMinutes }
    | some _ => dtAstimezone dt tz.offsetMinutes

/-- Character list of `dt.strftime(f"%Y-%m-%d %H:%M:%S[.%f] {tz_abbrev}")`,
with `%Z` modelled by the abbreviation of the (fixed-offset) app zone. -/
def strftimeChars (tz : Tz) (dt : PyDateTime) (withUs : Bool) : List Char :=
  pad4 dt.year ++ ('-' :: (pad2 dt.month ++ ('-' :: (pad2 dt.day ++
  (' ' :: (pad2 dt.hour ++ (':' :: (pad2 dt.minute ++ (':' :: (pad2 dt.second ++
  (if withUs then '.' :: (pad6 dt.microsecond ++ (' ' :: tz.tzAbbrev.data))
   else ' ' :: tz.tzAbbrev.data)))))))))))

/-- `_format_display` of `src/app/tools.py` (the same code as
`format_time_for_display` in `src/app/utils.py`): strftime, then
`.rstrip("0").rstrip(".")` in the microseconds branch. -/
def format_display (tz : Tz) (dt : PyDateTime) (includeMicroseconds : Bool) : String :=
  if includeMicroseconds then
    String.mk (rstripChars ['.'] (rstripChars ['0'] (strftimeChars tz dt true)))
  else
    String.mk (strftimeChars tz dt false)

/-- Microseconds per supported fixed-size unit (the
seconds/minutes/hours/days/weeks arms of `add_time_delta_tool`'s
`timedelta` dispatch). -/
def unitMicros (u : String) : Option Int :=
  if u = "seconds" then some 1000000
  else if u = "minutes" then some 60000000
  else if u = "hours" then some 3600000000
  else if u = "days" then some 86400000000
  else if u = "weeks" then some 604800000000
  else none

/-- `add_time_delta_tool(time_str, amount, unit)` of `src/app/tools.py`. -/
def add_time_delta_tool (tz : Tz) (time_str : String) (amount : Int)
    (unit : String) : Except PyErr String := do
  let base ← parse_to_timezone tz time_str
  let unit_lower := pyLower unit
  match unitMicros unit_lower with
  | some uu =>
    let r ← dtAddMicros base (amount * uu)
    let unit_plural :=
      if amount.natAbs ≠ 1 then unit else String.mk (rstripChars ['s'] unit.data)
    pure ("Time after adding " ++ intRepStr amount ++ " " ++ unit_plural ++ ": " ++
      pyIsoformatMicro r)
  | none =>
    if unit_lower = "year" ∨ unit_lower = "years" then do
      let r ← (match dtReplaceYear base ((base.year : Int) + amount) with
        | .ok r => Except.ok r
        | .error (PyErr.valueError _) => dtReplaceYearDay28 base ((base.year : Int) + amount)
        | .error e => .error e)
      let unit_plural := if amount.natAbs = 1 then "year" else "years"
      pure ("Time after adding " ++ intRepStr amount ++ " " ++ unit_plural ++ ": " ++
        pyIsoformatMicro r)
    else
      pure ("Error: Unsupported unit '" ++ unit ++
        "'. Supported units are: seconds, minutes, hours, days, weeks, years.")

/-- `subtract_time_delta_tool(time_str, amount, unit)` of
`src/app/tools.py`: add with the sign inverted, then re-annotate the
substring after the last `": "` of the add tool's result. -/
def subtract_time_delta_tool (tz : Tz) (time_str : String) (amount : Int)
    (unit : String) : Except PyErr String := do
  let result ← add_time_delta_tool tz time_str (-amount) unit
  let result_time := match afterLastSep result.data with
    | some r => r
    | none => result.data
  let unit_plural :=
    if amount.natAbs ≠ 1 then unit else String.mk (rstripChars ['s'] unit.data)
  pure ("Time after subtracting " ++ intRepStr amount ++ " " ++ unit_plural ++ ": " ++
    String.mk result_time)

/-- `parse_time_to_timezone_tool(time_str)` of `src/app/tools.py`. -/
def parse_time_to_timezone_tool (tz : Tz) (time_str : String) : Except PyErr String := do
  let c ← parse_to_timezone tz time_str
  pure ("Converted time to app timezone: " ++ pyIsoformatMicro c)

/-- `format_time_for_display_tool(time_str, include_microseconds)` of
`src/app/tools.py`. -/
def format_time_for_display_tool (tz : Tz) (time_str : String)
    (include_microseconds : Bool) : Except PyErr String := do
  let dt ← parse_to_timezone tz time_str
  pure ("Formatted time: " ++ format_display tz dt include_microseconds)

/-! ### Rendering/parsing round trip -/

theorem digVal_ofNat (j : Nat) (h : j < 10) :
    digVal (Char.ofNat (48 + j)) = some j := by
  interval_cases j <;> decide

theorem digVal_digitChar (k : Nat) : digVal (digitChar k) = some (k % 10) :=
  digVal_ofNat (k % 10) (Nat.mod_lt _ (by norm_num))

theorem read2_pad2 (n : Nat) (h : n < 100) (rest : List Char) :
    read2 (pad2 n ++ rest) = some (n, rest) := by
  simp only [pad2, List.cons_append, List.nil_append, read2,
    digVal_digitChar]
  have : n / 10 % 10 * 10 + n % 10 = n := by omega
  rw [this]

theorem read4_pad4 (n : Nat) (h : n < 10000) (rest : List Char) :
    read4 (pad4 n ++ rest) = some (n, rest) := by
  simp only [pad4, List.cons_append, List.nil_append, read4,
    digVal_digitChar]
  have : ((n / 1000 % 10 * 10 + n / 100 % 10) * 10 + n / 10 % 10) * 10 + n % 10 = n := by
    omega
  rw [this]

theorem readFracDigits_pad6 (us : Nat) (rest : List Char) :
    readFracDigits 6 (pad6 us ++ rest) 0 0 =
      (((((us / 100000 % 10 * 10 + us / 10000 % 10) * 10 + us / 1000 % 10) * 10 +
        us / 100 % 10) * 10 + us / 10 % 10) * 10 + us % 10, 6, rest) := by
  simp only [pad6, List.cons_append, List.nil_append, readFracDigits,
    digVal_digitChar]
  norm_num

theorem parseFrac_pad6 (us : Nat) (h : us < 1000000) (rest : List Char)
    (hnd : ∀ c cs', rest = c :: cs' → c.isDigit = false) :
    parseFrac (pad6 us ++ rest) = some (us, rest) := by
  simp only [parseFrac, readFracDigits_pad6]
  have hval : ((((us / 100000 % 10 * 10 + us / 10000 % 10) * 10 + us / 1000 % 10) * 10 +
      us / 100 % 10) * 10 + us / 10 % 10) * 10 + us % 10 = us := by omega
  rw [hval]
  match rest with
  | [] => simp
  | c :: cs' =>
    have := hnd c cs' rfl
    simp [this]

theorem parseOffsetTail_render (mag : Nat) (h : mag < 1440) (rest : List Char) :
    parseOffsetTail (pad2 (mag / 60) ++ (':' :: (pad2 (mag % 60) ++ rest))) =
      some (mag, rest) := by
  have h1 := read2_pad2 (mag / 60) (by omega) (':' :: (pad2 (mag % 60) ++ rest))
  simp only [parseOffsetTail, h1]
  have h2 := read2_pad2 (mag % 60) (by omega) rest
  simp only [h2]
  have h3 : mag % 60 < 60 := Nat.mod_lt _ (by norm_num)
  rw [if_pos h3]
  have : mag / 60 * 60 + mag % 60 = mag := by omega
  rw [this]

theorem parseOffset_render (off : Int) (h : off.natAbs < 1440) (rest : List Char) :
    parseOffset (offsetChars off ++ rest) = some (off, rest) := by
  by_cases hneg : off < 0
  · simp only [offsetChars, if_pos hneg, List.cons_append, List.append_assoc,
      List.cons_append]
    simp only [parseOffset, parseOffsetTail_render off.natAbs h rest]
    rw [if_pos h]
    have : -(off.natAbs : Int) = off := by omega
    rw [this]
  · simp only [offsetChars, if_neg hneg, List.cons_append, List.append_assoc,
      List.cons_append]
    simp only [parseOffset, parseOffsetTail_render off.natAbs h rest]
    rw [if_pos h]
    have : (off.natAbs : Int) = off := by omega
    rw [this]

theorem parseTimeChars_render (hh mi s us : Nat) (h1 : hh < 100) (h2 : mi < 100)
    (h3 : s < 100) (hus : us < 1000000) (rest : List Char)
    (hnd : ∀ c cs', rest = c :: cs' → c.isDigit = false) :
    parseTimeChars (pad2 hh ++ (':' :: (pad2 mi ++ (':' :: (pad2 s ++
      ('.' :: (pad6 us ++ rest))))))) = some (hh, mi, s, us, rest) := by
  have e1 := read2_pad2 hh h1 (':' :: (pad2 mi ++ (':' :: (pad2 s ++ ('.' :: (pad6 us ++ rest))))))
  simp only [parseTimeChars, e1]
  have e2 := read2_pad2 mi h2 (':' :: (pad2 s ++ ('.' :: (pad6 us ++ rest))))
  simp only [e2]
  have e3 := read2_pad2 s h3 ('.' :: (pad6 us ++ rest))
  simp only [e3]
  simp only [parseFrac_pad6 us hus rest hnd]

theorem daysInMonth_le (y m : Nat) : daysInMonth y m ≤ 31 := by
  unfold daysInMonth
  split
  · split <;> omega
  · split <;> omega

theorem pyFromisoformat_isoChars (dt : PyDateTime) (hv : ValidDT dt)
    (hoff : ∀ off, dt.offsetMinutes = some off → off.natAbs < 1440) :
    pyFromisoformat (isoChars dt) = some dt := by
  obtain ⟨y, mo, d, hh, mi, ss, us, off⟩ := dt
  obtain ⟨⟨hy1, hy2, hm1, hm2, hd1, hd2⟩, hhh, hmi, hss, hus⟩ := hv
  simp only at hy1 hy2 hm1 hm2 hd1 hd2 hhh hmi hss hus
  have hvld : ValidYMD y mo d := ⟨hy1, hy2, hm1, hm2, hd1, hd2⟩
  have hd31 : d ≤ 31 := by
    have := daysInMonth_le y mo
    omega
  have hrestn : ∀ c cs', ([] : List Char) = c :: cs' → c.isDigit = false := by
    intro c cs' he
    cases he
  match off with
  | none =>
    simp only [isoChars]
    have e0 := read4_pad4 y (by omega)
      ('-' :: (pad2 mo ++ ('-' :: (pad2 d ++ ('T' :: (pad2 hh ++ (':' :: (pad2 mi ++
        (':' :: (pad2 ss ++ ('.' :: (pad6 us ++ ([] : List Char)))))))))))))
    simp only [pyFromisoformat, e0]
    have e1 := read2_pad2 mo (by omega) ('-' :: (pad2 d ++ ('T' :: (pad2 hh ++
      (':' :: (pad2 mi ++ (':' :: (pad2 ss ++ ('.' :: (pad6 us ++ ([] : List Char)))))))))))
    simp only [e1]
    have e2 := read2_pad2 d (by omega) ('T' :: (pad2 hh ++ (':' :: (pad2 mi ++
      (':' :: (pad2 ss ++ ('.' :: (pad6 us ++ ([] : List Char)))))))))
    simp only [e2]
    have e3 := parseTimeChars_render hh mi ss us (by omega) (by omega) (by omega)
      (by omega) [] hrestn
    simp only [e3]
    simp only [mkValidated]
    rw [if_pos ⟨hvld, by omega, by omega, by omega, by omega⟩]
  | some o =>
    have hoo : o.natAbs < 1440 := hoff o rfl
    simp only [isoChars]
    have e0 := read4_pad4 y (by omega)
      ('-' :: (pad2 mo ++ ('-' :: (pad2 d ++ ('T' :: (pad2 hh ++ (':' :: (pad2 mi ++
        (':' :: (pad2 ss ++ ('.' :: (pad6 us ++ offsetChars o))))))))))))
    simp only [pyFromisoformat, e0]
    have e1 := read2_pad2 mo (by omega) ('-' :: (pad2 d ++ ('T' :: (pad2 hh ++
      (':' :: (pad2 mi ++ (':' :: (pad2 ss ++ ('.' :: (pad6 us ++ offsetChars o))))))))))
    simp only [e1]
    have e2 := read2_pad2 d (by omega) ('T' :: (pad2 hh ++ (':' :: (pad2 mi ++
      (':' :: (pad2 ss ++ ('.' :: (pad6 us ++ offsetChars o))))))))
    simp only [e2]
    have hrest : ∀ c cs', offsetChars o = c :: cs' → c.isDigit = false := by
      intro c cs' he
      simp only [offsetChars] at he
      by_cases hneg : o < 0
      · rw [if_pos hneg] at he
        cases he
        decide
      · rw [if_neg hneg] at he
        cases he
        decide
    have e3 := parseTimeChars_render hh mi ss us (by omega) (by omega) (by omega)
      (by omega) (offsetChars o) hrest
    simp only [e3]
    have e4 : parseOffset (offsetChars o) = some (o, []) := by
      have := parseOffset_render o hoo []
      simpa using this
    have hne : offsetChars o ≠ [] := by
      simp [offsetChars]
    match hoc : offsetChars o with
    | [] => exact absurd hoc hne
    | c :: cs' =>
      rw [hoc] at e4
      simp only [e4]
      simp only [mkValidated]
      rw [if_pos ⟨hvld, by omega, by omega, by omega, by omega⟩]

/-! ### Scanning lemmas for the `": "` separator -/

/-- Every `':'` in the list is immediately followed by a digit (so the
list cannot contain the `": "` separator). -/
def colonSafe : List Char → Bool
  | [] => true
  | c :: rest =>
    (match rest with
     | [] => true
     | c2 :: _ => if c = ':' then c2.isDigit else true) && colonSafe rest

theorem isDigit_ne_colon (c : Char) (h : c.isDigit = true) : c ≠ ':' := by
  intro he
  subst he
  simp at h

theorem isDigit_ne_space (c : Char) (h : c.isDigit = true) : c ≠ ' ' := by
  intro he
  subst he
  simp at h

theorem digitChar_isDigit (k : Nat) : (digitChar k).isDigit = true := by
  have h : k % 10 < 10 := Nat.mod_lt _ (by norm_num)
  unfold digitChar
  set j := k % 10 with hj
  interval_cases j <;> decide

theorem colonSafe_cons (c : Char) (rest : List Char) (hc : c ≠ ':')
    (h : colonSafe rest = true) : colonSafe (c :: rest) = true := by
  cases rest with
  | nil => simp [colonSafe]
  | cons c2 t =>
    simp only [colonSafe, Bool.and_eq_true] at h ⊢
    exact ⟨by rw [if_neg hc], h⟩

theorem colonSafe_colon (c2 : Char) (t : List Char) (hc2 : c2.isDigit = true)
    (h : colonSafe (c2 :: t) = true) : colonSafe (':' :: c2 :: t) = true := by
  simp only [colonSafe, Bool.and_eq_true] at h ⊢
  exact ⟨by simp [hc2], h⟩

theorem colonSafe_digits_append (a rest : List Char)
    (ha : ∀ c ∈ a, c.isDigit = true) (h : colonSafe rest = true) :
    colonSafe (a ++ rest) = true := by
  induction a with
  | nil => simpa using h
  | cons c t ih =>
    have hc : c.isDigit = true := ha c (List.mem_cons_self c t)
    rw [List.cons_append]
    exact colonSafe_cons c (t ++ rest) (isDigit_ne_colon c hc)
      (ih (fun x hx => ha x (List.mem_cons_of_mem c hx)))

theorem pad2_digits (n : Nat) : ∀ c ∈ pad2 n, c.isDigit = true := by
  intro c hc
  simp only [pad2, List.mem_cons, List.not_mem_nil, or_false] at hc
  rcases hc with h | h <;> rw [h] <;> exact digitChar_isDigit _

theorem pad4_digits (n : Nat) : ∀ c ∈ pad4 n, c.isDigit = true := by
  intro c hc
  simp only [pad4, List.mem_cons, List.not_mem_nil, or_false] at hc
  rcases hc with h | h | h | h <;> rw [h] <;> exact digitChar_isDigit _

theorem pad6_digits (n : Nat) : ∀ c ∈ pad6 n, c.isDigit = true := by
  intro c hc
  simp only [pad6, List.mem_cons, List.not_mem_nil, or_false] at hc
  rcases hc with h | h | h | h | h | h <;> rw [h] <;> exact digitChar_isDigit _

theorem colonSafe_pad2_cons (n : Nat) (rest : List Char)
    (h : colonSafe rest = true) : colonSafe (pad2 n ++ rest) = true :=
  colonSafe_digits_append _ _ (pad2_digits n) h

theorem colonSafe_colon_pad2 (n : Nat) (rest : List Char)
    (h : colonSafe (pad2 n ++ rest) = true) :
    colonSafe (':' :: (pad2 n ++ rest)) = true := by
  have he : pad2 n ++ rest = digitChar (n / 10) :: (digitChar n :: rest) := rfl
  rw [he] at h ⊢
  exact colonSafe_colon _ _ (digitChar_isDigit _) h

theorem colonSafe_colon_pad2_nil (n : Nat) :
    colonSafe (':' :: pad2 n) = true := by
  simp [colonSafe, pad2, digitChar_isDigit]

theorem colonSafe_offsetChars (off : Int) : colonSafe (offsetChars off) = true := by
  unfold offsetChars
  have h3 := colonSafe_colon_pad2_nil (off.natAbs % 60)
  have h4 := colonSafe_pad2_cons (off.natAbs / 60) _ h3
  by_cases hneg : off < 0
  · rw [if_pos hneg]
    exact colonSafe_cons _ _ (by decide) h4
  · rw [if_neg hneg]
    exact colonSafe_cons _ _ (by decide) h4

theorem colonSafe_isoChars (dt : PyDateTime) : colonSafe (isoChars dt) = true := by
  unfold isoChars
  have h0 : colonSafe (match dt.offsetMinutes with
      | none => ([] : List Char)
      | some off => offsetChars off) = true := by
    cases dt.offsetMinutes with
    | none => rfl
    | some off => exact colonSafe_offsetChars off
  have h1 := colonSafe_digits_append _ _ (pad6_digits dt.microsecond) h0
  have h2 := colonSafe_cons '.' _ (by decide) h1
  have h3 := colonSafe_pad2_cons dt.second _ h2
  have h4 := colonSafe_colon_pad2 dt.second _ h3
  have h5 := colonSafe_pad2_cons dt.minute _ h4
  have h6 := colonSafe_colon_pad2 dt.minute _ h5
  have h7 := colonSafe_pad2_cons dt.hour _ h6
  have h8 := colonSafe_cons 'T' _ (by decide) h7
  have h9 := colonSafe_pad2_cons dt.day _ h8
  have h10 := colonSafe_cons '-' _ (by decide) h9
  have h11 := colonSafe_pad2_cons dt.month _ h10
  have h12 := colonSafe_cons '-' _ (by decide) h11
  exact colonSafe_digits_append _ _ (pad4_digits _) h12

theorem afterFirstSep_cons (c : Char) (rest : List Char)
    (h : ¬(c = ':' ∧ rest.head? = some ' ')) :
    afterFirstSep (c :: rest) = afterFirstSep rest := by
  rw [afterFirstSep.eq_def]
  split
  · rename_i heq
    simp at heq
  · rename_i r heq
    exfalso
    apply h
    injection heq with e1 e2
    exact ⟨e1, by rw [e2]; rfl⟩
  · rename_i x head r hno heq
    injection heq with e1 e2
    rw [e2]

theorem afterLastSep_cons (c : Char) (rest : List Char)
    (h : ¬(c = ':' ∧ rest.head? = some ' ')) :
    afterLastSep (c :: rest) = afterLastSep rest := by
  rw [afterLastSep.eq_def]
  split
  · rename_i heq
    simp at heq
  · rename_i r heq
    exfalso
    apply h
    injection heq with e1 e2
    exact ⟨e1, by rw [e2]; rfl⟩
  · rename_i x head r hno heq
    injection heq with e1 e2
    rw [e2]

theorem afterLastSep_sep (t : List Char) :
    afterLastSep (':' :: (' ' :: t)) =
      match afterLastSep t with
      | some r => some r
      | none => some t := rfl

theorem colonSafe_afterFirstSep (cs : List Char) (h : colonSafe cs = true) :
    afterFirstSep cs = none := by
  induction cs with
  | nil => rfl
  | cons c rest ih =>
    simp only [colonSafe, Bool.and_eq_true] at h
    obtain ⟨h1, h2⟩ := h
    have hstep : ¬(c = ':' ∧ rest.head? = some ' ') := by
      rintro ⟨hc1, hc2⟩
      subst hc1
      cases rest with
      | nil => simp at hc2
      | cons c2 t =>
        simp at hc2
        subst hc2
        simp at h1
    rw [afterFirstSep_cons c rest hstep]
    exact ih h2

theorem colonSafe_afterLastSep (cs : List Char) (h : colonSafe cs = true) :
    afterLastSep cs = none := by
  induction cs with
  | nil => rfl
  | cons c rest ih =>
    simp only [colonSafe, Bool.and_eq_true] at h
    obtain ⟨h1, h2⟩ := h
    have hstep : ¬(c = ':' ∧ rest.head? = some ' ') := by
      rintro ⟨hc1, hc2⟩
      subst hc1
      cases rest with
      | nil => simp at hc2
      | cons c2 t =>
        simp at hc2
        subst hc2
        simp at h1
    rw [afterLastSep_cons c rest hstep]
    exact ih h2

theorem afterFirstSep_append (a b : List Char) (ha : ∀ c ∈ a, c ≠ ':') :
    afterFirstSep (a ++ (':' :: (' ' :: b))) = some b := by
  induction a with
  | nil => rfl
  | cons c t ih =>
    rw [List.cons_append]
    rw [afterFirstSep_cons c _ (fun hcc => ha c (List.mem_cons_self c t) hcc.1)]
    exact ih (fun x hx => ha x (List.mem_cons_of_mem c hx))

theorem afterLastSep_append_aux (b : List Char) (hb : afterLastSep b = none) :
    ∀ (n : Nat) (a : List Char), a.length ≤ n →
      afterLastSep (a ++ (':' :: (' ' :: b))) = some b := by
  have base : afterLastSep (':' :: (' ' :: b)) = some b := by
    rw [afterLastSep_sep, hb]
  intro n
  induction n with
  | zero =>
    intro a ha
    cases a with
    | nil => exact base
    | cons c t => simp at ha
  | succ n ih =>
    intro a ha
    cases a with
    | nil => exact base
    | cons c t =>
      rw [List.cons_append]
      by_cases hc : c = ':' ∧ (t ++ (':' :: (' ' :: b))).head? = some ' '
      · obtain ⟨hc1, hc2⟩ := hc
        subst hc1
        cases t with
        | nil => simp at hc2
        | cons c2 t2 =>
          simp at hc2
          subst hc2
          rw [List.cons_append, afterLastSep_sep]
          rw [ih t2 (by simp at ha ⊢; omega)]
      · rw [afterLastSep_cons c _ hc]
        exact ih t (by simp at ha ⊢; omega)

theorem afterLastSep_append (a b : List Char) (hb : afterLastSep b = none) :
    afterLastSep (a ++ (':' :: (' ' :: b))) = some b :=
  afterLastSep_append_aux b hb a.length a le_rfl

/-! ### `parse_to_timezone` on rendered and annotated timestamps -/

theorem isDigit_ne_Z (c : Char) (h : c.isDigit = true) : c ≠ 'Z' := by
  intro he
  subst he
  simp at h

theorem replaceZ_eq_self (cs : List Char) (h : ∀ c ∈ cs, c ≠ 'Z') :
    replaceZ cs = cs := by
  induction cs with
  | nil => rfl
  | cons c t ih =>
    have hc : c ≠ 'Z' := h c (List.mem_cons_self c t)
    rw [replaceZ.eq_def]
    split
    · rename_i heq
      simp at heq
    · rename_i r heq
      exfalso
      injection heq with e1 e2
      exact hc e1
    · rename_i x c' r heq
      injection heq with e1 e2
      subst e1
      subst e2
      rw [ih (fun x hx => h x (List.mem_cons_of_mem _ hx))]

theorem mem_offsetChars_ne_Z (off : Int) : ∀ c ∈ offsetChars off, c ≠ 'Z' := by
  intro c hc
  unfold offsetChars at hc
  rcases List.mem_cons.mp hc with h | h
  · subst h
    by_cases hneg : off < 0
    · rw [if_pos hneg]
      decide
    · rw [if_neg hneg]
      decide
  · rcases List.mem_append.mp h with h2 | h2
    · exact isDigit_ne_Z c (pad2_digits _ c h2)
    · rcases List.mem_cons.mp h2 with h3 | h3
      · subst h3
        decide
      · exact isDigit_ne_Z c (pad2_digits _ c h3)

theorem mem_isoChars_ne_Z (dt : PyDateTime) : ∀ c ∈ isoChars dt, c ≠ 'Z' := by
  intro c hc
  unfold isoChars at hc
  cases ho : dt.offsetMinutes with
  | none =>
    rw [ho] at hc
    simp only [List.mem_append, List.mem_cons, List.not_mem_nil, or_false,
      List.append_nil] at hc
    rcases hc with h | h | h | h | h | h | h | h | h | h | h | h | h
    · exact isDigit_ne_Z c (pad4_digits _ c h)
    · subst h; decide
    · exact isDigit_ne_Z c (pad2_digits _ c h)
    · subst h; decide
    · exact isDigit_ne_Z c (pad2_digits _ c h)
    · subst h; decide
    · exact isDigit_ne_Z c (pad2_digits _ c h)
    · subst h; decide
    · exact isDigit_ne_Z c (pad2_digits _ c h)
    · subst h; decide
    · exact isDigit_ne_Z c (pad2_digits _ c h)
    · subst h; decide
    · exact isDigit_ne_Z c (pad6_digits _ c h)
  | some off =>
    rw [ho] at hc
    simp only [List.mem_append, List.mem_cons, List.not_mem_nil, or_false] at hc
    rcases hc with h | h | h | h | h | h | h | h | h | h | h | h | h | h
    · exact isDigit_ne_Z c (pad4_digits _ c h)
    · subst h; decide
    · exact isDigit_ne_Z c (pad2_digits _ c h)
    · subst h; decide
    · exact isDigit_ne_Z c (pad2_digits _ c h)
    · subst h; decide
    · exact isDigit_ne_Z c (pad2_digits _ c h)
    · subst h; decide
    · exact isDigit_ne_Z c (pad2_digits _ c h)
    · subst h; decide
    · exact isDigit_ne_Z c (pad2_digits _ c h)
    · subst h; decide
    · exact isDigit_ne_Z c (pad6_digits _ c h)
    · exact mem_offsetChars_ne_Z off c h

theorem dtAstimezone_self (dt : PyDateTime) (hv : ValidDT dt) (off : Int)
    (h : dt.offsetMinutes = some off) : dtAstimezone dt off = .ok dt := by
  unfold dtAstimezone
  simp only [h]
  have hw := wallMicros_lt dt hv
  have he : ((wallMicros dt : Int) + (off - off) * 60000000) = (wallMicros dt : Int) := by
    ring
  rw [he]
  rw [if_pos ⟨Int.natCast_nonneg _, by exact_mod_cast hw⟩]
  rw [Int.toNat_natCast]
  rw [← h]
  rw [dtOfMicros_wallMicros dt hv]

theorem parse_to_timezone_iso (tz : Tz) (dt : PyDateTime) (hv : ValidDT dt)
    (hof : dt.offsetMinutes = some tz.offsetMinutes)
    (hbnd : tz.offsetMinutes.natAbs < 1440) :
    parse_to_timezone tz (pyIsoformatMicro dt) = .ok dt := by
  unfold parse_to_timezone pyIsoformatMicro
  have hdata : (String.mk (isoChars dt)).data = isoChars dt := rfl
  rw [hdata]
  have hb : ∀ o : Int, dt.offsetMinutes = some o → o.natAbs < 1440 := by
    intro o ho
    rw [hof] at ho
    injection ho with e
    subst e
    exact hbnd
  simp only [colonSafe_afterFirstSep _ (colonSafe_isoChars dt),
    replaceZ_eq_self _ (mem_isoChars_ne_Z dt),
    pyFromisoformat_isoChars dt hv hb, hof]
  exact dtAstimezone_self dt hv tz.offsetMinutes hof

theorem parse_to_timezone_annotated (tz : Tz) (a : List Char) (dt : PyDateTime)
    (hv : ValidDT dt) (hof : dt.offsetMinutes = some tz.offsetMinutes)
    (hbnd : tz.offsetMinutes.natAbs < 1440) (ha : ∀ c ∈ a, c ≠ ':') :
    parse_to_timezone tz (String.mk (a ++ (':' :: (' ' :: isoChars dt)))) = .ok dt := by
  unfold parse_to_timezone
  have hdata : (String.mk (a ++ (':' :: (' ' :: isoChars dt)))).data =
      a ++ (':' :: (' ' :: isoChars dt)) := rfl
  rw [hdata]
  have hb : ∀ o : Int, dt.offsetMinutes = some o → o.natAbs < 1440 := by
    intro o ho
    rw [hof] at ho
    injection ho with e
    subst e
    exact hbnd
  simp only [afterFirstSep_append a _ ha,
    replaceZ_eq_self _ (mem_isoChars_ne_Z dt),
    pyFromisoformat_isoChars dt hv hb, hof]
  exact dtAstimezone_self dt hv tz.offsetMinutes hof

theorem mkValidated_props (y mo d h mi s us : Nat) (off : Option Int)
    (dt : PyDateTime) (he : mkValidated y mo d h mi s us off = some dt) :
    ValidDT dt ∧ dt.offsetMinutes = off := by
  unfold mkValidated at he
  split at he
  · rename_i hc
    obtain ⟨hv, h1, h2, h3, h4⟩ := hc
    injection he with he2
    subst he2
    exact ⟨⟨hv, show h < 24 by omega, show mi < 60 by omega, show s < 60 by omega,
      show us < 1000000 by omega⟩, rfl⟩
  · exact absurd he (by simp)

theorem pyFromisoformat_props (cs : List Char) (dt : PyDateTime)
    (h : pyFromisoformat cs = some dt) :
    ValidDT dt := by
  unfold pyFromisoformat at h
  split at h
  · exact absurd h (by simp)
  · split at h
    · split at h
      · exact absurd h (by simp)
      · split at h
        · split at h
          · exact absurd h (by simp)
          · split at h
            · exact (mkValidated_props _ _ _ _ _ _ _ _ _ h).1
            · split at h
              · exact absurd h (by simp)
              · split at h
                · exact (mkValidated_props _ _ _ _ _ _ _ _ _ h).1
                · split at h
                  · exact (mkValidated_props _ _ _ _ _ _ _ _ _ h).1
                  · exact absurd h (by simp)
        · exact absurd h (by simp)
    · exact absurd h (by simp)

theorem dtAstimezone_props (dt : PyDateTime) (target : Int) (r : PyDateTime)
    (h : dtAstimezone dt target = .ok r) :
    ValidDT r ∧ r.offsetMinutes = some target := by
  unfold dtAstimezone at h
  split at h
  · exact absurd h (by simp)
  · rename_i off hoff
    split at h
    · rename_i hcond
      injection h with h2
      subst h2
      have hlt : ((wallMicros dt : Int) + (target - off) * 60000000).toNat < totalUs := by
        omega
      obtain ⟨hv, _, ho⟩ := dtOfMicros_spec _ hlt (some target)
      exact ⟨hv, ho⟩
    · exact absurd h (by simp)

theorem parse_to_timezone_props (tz : Tz) (ts : String) (dt : PyDateTime)
    (h : parse_to_timezone tz ts = .ok dt) :
    ValidDT dt ∧ dt.offsetMinutes = some tz.offsetMinutes := by
  unfold parse_to_timezone at h
  split at h
  · exact absurd h (by simp)
  · rename_i dtp hp
    split at h
    · rename_i hoff
      injection h with h2
      subst h2
      have hv := pyFromisoformat_props _ _ hp
      refine ⟨⟨hv.1, hv.2.1, hv.2.2.1, hv.2.2.2.1, hv.2.2.2.2⟩, rfl⟩
    · exact dtAstimezone_props _ _ _ h

theorem dtAddMicros_props (dt : PyDateTime) (delta : Int) (r : PyDateTime)
    (h : dtAddMicros dt delta = .ok r) :
    ValidDT r ∧ r.offsetMinutes = dt.offsetMinutes ∧
    (wallMicros r : Int) = (wallMicros dt : Int) + delta := by
  unfold dtAddMicros at h
  split at h
  · rename_i hcond
    injection h with h2
    subst h2
    have hlt : ((wallMicros dt : Int) + delta).toNat < totalUs := by omega
    obtain ⟨hv, hw, ho⟩ := dtOfMicros_spec _ hlt dt.offsetMinutes
    refine ⟨hv, ho, ?_⟩
    rw [hw]
    omega
  · exact absurd h (by simp)

/-! ### Character facts about rendered prefixes -/

theorem natRepAux_digits (fuel : Nat) :
    ∀ (n : Nat) (c : Char), c ∈ natRepAux fuel n → c.isDigit = true := by
  induction fuel with
  | zero =>
    intro n c hc
    simp [natRepAux] at hc
  | succ fuel ih =>
    intro n c hc
    unfold natRepAux at hc
    split at hc
    · simp only [List.mem_cons, List.not_mem_nil, or_false] at hc
      rw [hc]
      exact digitChar_isDigit _
    · rcases List.mem_append.mp hc with h | h
      · exact ih _ _ h
      · simp only [List.mem_cons, List.not_mem_nil, or_false] at h
        rw [h]
        exact digitChar_isDigit _

theorem intRep_no_colon (i : Int) : ∀ c ∈ intRep i, c ≠ ':' := by
  intro c hc
  unfold intRep at hc
  split at hc
  · rcases List.mem_cons.mp hc with h | h
    · subst h
      decide
    · exact isDigit_ne_colon c (natRepAux_digits _ _ _ h)
  · exact isDigit_ne_colon c (natRepAux_digits _ _ _ hc)

theorem mem_rstripChars (bad cs : List Char) (c : Char)
    (h : c ∈ rstripChars bad cs) : c ∈ cs := by
  unfold rstripChars at h
  rw [List.mem_reverse] at h
  have hs : (cs.reverse.dropWhile (fun c => bad.contains c)).Sublist cs.reverse :=
    List.dropWhile_sublist _
  have := hs.mem h
  rwa [List.mem_reverse] at this

theorem unitMicros_strings (v : String) (uu : Int) (h : unitMicros v = some uu) :
    v = "seconds" ∨ v = "minutes" ∨ v = "hours" ∨ v = "days" ∨ v = "weeks" := by
  unfold unitMicros at h
  by_cases h1 : v = "seconds"
  · exact Or.inl h1
  rw [if_neg h1] at h
  by_cases h2 : v = "minutes"
  · exact Or.inr (Or.inl h2)
  rw [if_neg h2] at h
  by_cases h3 : v = "hours"
  · exact Or.inr (Or.inr (Or.inl h3))
  rw [if_neg h3] at h
  by_cases h4 : v = "days"
  · exact Or.inr (Or.inr (Or.inr (Or.inl h4)))
  rw [if_neg h4] at h
  by_cases h5 : v = "weeks"
  · exact Or.inr (Or.inr (Or.inr (Or.inr h5)))
  rw [if_neg h5] at h
  exact absurd h (by simp)

theorem pyLower_unit_no_colon (u : String) (uu : Int)
    (h : unitMicros (pyLower u) = some uu) : ∀ c ∈ u.data, c ≠ ':' := by
  intro c hc he
  subst he
  have hm : lowerChar ':' ∈ (pyLower u).data := by
    show lowerChar ':' ∈ u.data.map lowerChar
    exact List.mem_map_of_mem lowerChar hc
  have hm2 : (':' : Char) ∈ (pyLower u).data := by
    rwa [show lowerChar ':' = ':' from by decide] at hm
  rcases unitMicros_strings _ _ h with h' | h' | h' | h' | h' <;>
    rw [h'] at hm2 <;> revert hm2 <;> decide

theorem ebind_ok {α β : Type} (a : α) (f : α → Except PyErr β) :
    (Except.ok a >>= f) = f a := rfl

theorem exceptBind_ok {α β : Type} (a : α) (f : α → Except PyErr β) :
    (Except.ok a).bind f = f a := rfl

theorem annotated_data (p : String) (dt : PyDateTime) :
    (p ++ ": " ++ pyIsoformatMicro dt).data = p.data ++ (':' :: (' ' :: isoChars dt)) := by
  rw [String.data_append, String.data_append]
  show p.data ++ [':', ' '] ++ isoChars dt = _
  simp

theorem prefix_no_colon (n : Int) (u : String) (uu : Int)
    (hu : unitMicros (pyLower u) = some uu) :
    ∀ c ∈ ("Time after adding " ++ intRepStr n ++ " " ++
      (if n.natAbs ≠ 1 then u else String.mk (rstripChars ['s'] u.data))).data,
      c ≠ ':' := by
  intro c hc
  simp only [String.data_append] at hc
  rcases List.mem_append.mp hc with hc | hc
  · rcases List.mem_append.mp hc with hc | hc
    · rcases List.mem_append.mp hc with hc | hc
      · fin_cases hc <;> decide
      · exact intRep_no_colon n c hc
    · have : c = ' ' := by simpa using hc
      subst this
      decide
  · have hcu : c ∈ u.data := by
      split at hc
      · exact hc
      · exact mem_rstripChars _ _ _ hc
    exact pyLower_unit_no_colon u uu hu c hcu

theorem add_fixed_eq (tz : Tz) (t : String) (n : Int) (u : String) (uu : Int)
    (dt0 : PyDateTime) (hu : unitMicros (pyLower u) = some uu)
    (hp : parse_to_timezone tz t = .ok dt0) :
    add_time_delta_tool tz t n u =
      (dtAddMicros dt0 (n * uu)).bind (fun r => Except.ok
        ("Time after adding " ++ intRepStr n ++ " " ++
         (if n.natAbs ≠ 1 then u else String.mk (rstripChars ['s'] u.data)) ++ ": " ++
         pyIsoformatMicro r)) := by
  unfold add_time_delta_tool
  rw [hp, ebind_ok]
  simp only [hu]
  rfl

theorem add_output_parses_back (tz : Tz) (hbnd : tz.offsetMinutes.natAbs < 1440)
    (n : Int) (u : String) (uu : Int) (hu : unitMicros (pyLower u) = some uu)
    (dt1 : PyDateTime) (hv1 : ValidDT dt1)
    (ho1 : dt1.offsetMinutes = some tz.offsetMinutes) :
    parse_to_timezone tz
      ("Time after adding " ++ intRepStr n ++ " " ++
       (if n.natAbs ≠ 1 then u else String.mk (rstripChars ['s'] u.data)) ++ ": " ++
       pyIsoformatMicro dt1) = .ok dt1 := by
  have hshape :
      ("Time after adding " ++ intRepStr n ++ " " ++
       (if n.natAbs ≠ 1 then u else String.mk (rstripChars ['s'] u.data)) ++ ": " ++
       pyIsoformatMicro dt1) =
      String.mk (("Time after adding " ++ intRepStr n ++ " " ++
        (if n.natAbs ≠ 1 then u else String.mk (rstripChars ['s'] u.data))).data ++
        (':' :: (' ' :: isoChars dt1))) := by
    apply String.ext
    rw [annotated_data]
  rw [hshape]
  exact parse_to_timezone_annotated tz _ dt1 hv1 ho1 hbnd (prefix_no_colon n u uu hu)

theorem add_subtract_roundtrip_fixed (tz : Tz) (hbnd : tz.offsetMinutes.natAbs < 1440)
    (t : String) (n : Int) (u : String) (uu : Int)
    (hu : unitMicros (pyLower u) = some uu)
    (dt0 : PyDateTime) (hp : parse_to_timezone tz t = .ok dt0)
    (s : String) (hs : add_time_delta_tool tz t n u = .ok s) :
    subtract_time_delta_tool tz s n u =
      .ok ("Time after subtracting " ++ intRepStr n ++ " " ++
        (if n.natAbs ≠ 1 then u else String.mk (rstripChars ['s'] u.data)) ++ ": " ++
        pyIsoformatMicro dt0) := by
  obtain ⟨hv0, ho0⟩ := parse_to_timezone_props tz t dt0 hp
  rw [add_fixed_eq tz t n u uu dt0 hu hp] at hs
  cases haddm : dtAddMicros dt0 (n * uu) with
  | error e =>
    rw [haddm] at hs
    exact absurd hs (by simp [Except.bind])
  | ok dt1 =>
    rw [haddm] at hs
    simp only [Except.bind] at hs
    injection hs with hs2
    subst hs2
    obtain ⟨hv1, ho1', hw1⟩ := dtAddMicros_props dt0 (n * uu) dt1 haddm
    have ho1 : dt1.offsetMinutes = some tz.offsetMinutes := by rw [ho1', ho0]
    unfold subtract_time_delta_tool
    have hp2 := add_output_parses_back tz hbnd n u uu hu dt1 hv1 ho1
    rw [add_fixed_eq tz _ (-n) u uu dt1 hu hp2]
    have haddm2 : dtAddMicros dt1 (-n * uu) = .ok dt0 := by
      unfold dtAddMicros
      have he : (wallMicros dt1 : Int) + -n * uu = (wallMicros dt0 : Int) := by
        rw [hw1]
        ring
      rw [he]
      rw [if_pos ⟨Int.natCast_nonneg _, by exact_mod_cast wallMicros_lt dt0 hv0⟩]
      rw [Int.toNat_natCast, ho1']
      rw [dtOfMicros_wallMicros dt0 hv0]
    rw [haddm2]
    simp only [exceptBind_ok, ebind_ok]
    have hlast : afterLastSep ("Time after adding " ++ intRepStr (-n) ++ " " ++
        (if (-n).natAbs ≠ 1 then u else String.mk (rstripChars ['s'] u.data)) ++ ": " ++
        pyIsoformatMicro dt0).data = some (isoChars dt0) := by
      rw [annotated_data]
      exact afterLastSep_append _ _ (colonSafe_afterLastSep _ (colonSafe_isoChars dt0))
    simp only [hlast]
    rfl

theorem parse_prefixed_iso (tz : Tz) (hbnd : tz.offsetMinutes.natAbs < 1440)
    (p : String) (hpc : ∀ c ∈ p.data, c ≠ ':') (dt : PyDateTime) (hv : ValidDT dt)
    (ho : dt.offsetMinutes = some tz.offsetMinutes) :
    parse_to_timezone tz (p ++ ": " ++ pyIsoformatMicro dt) = .ok dt := by
  have hshape : (p ++ ": " ++ pyIsoformatMicro dt) =
      String.mk (p.data ++ (':' :: (' ' :: isoChars dt))) := by
    apply String.ext
    rw [annotated_data]
  rw [hshape]
  exact parse_to_timezone_annotated tz _ dt hv ho hbnd hpc

theorem years_prefix_no_colon (n : Int) :
    ∀ c ∈ ("Time after adding " ++ intRepStr n ++ " " ++
      (if n.natAbs = 1 then "year" else "years")).data, c ≠ ':' := by
  intro c hc
  simp only [String.data_append] at hc
  rcases List.mem_append.mp hc with hc | hc
  · rcases List.mem_append.mp hc with hc | hc
    · rcases List.mem_append.mp hc with hc | hc
      · fin_cases hc <;> decide
      · exact intRep_no_colon n c hc
    · have : c = ' ' := by simpa using hc
      subst this
      decide
  · split at hc <;> fin_cases hc <;> decide

theorem dtReplaceYear_props (dt : PyDateTime) (hv : ValidDT dt) (newYear : Int)
    (r : PyDateTime) (h : dtReplaceYear dt newYear = .ok r) :
    ValidDT r ∧ r = { dt with year := newYear.toNat } ∧ 1 ≤ newYear ∧ newYear ≤ 9999 := by
  obtain ⟨⟨_, _, hm1, hm2, hd1, _⟩, hh, hmi, hs, hus⟩ := hv
  unfold dtReplaceYear at h
  split at h
  · rename_i hcond
    obtain ⟨h1, h2, h3⟩ := hcond
    injection h with h2'
    subst h2'
    refine ⟨⟨⟨show 1 ≤ newYear.toNat by omega, show newYear.toNat ≤ 9999 by omega,
      hm1, hm2, hd1, h3⟩, hh, hmi, hs, hus⟩, rfl, h1, h2⟩
  · exact absurd h (by simp)

theorem add_years_eq (tz : Tz) (t : String) (n : Int) (u : String)
    (dt0 dt1 : PyDateTime)
    (hul : pyLower u = "year" ∨ pyLower u = "years")
    (hp : parse_to_timezone tz t = .ok dt0)
    (hrep : dtReplaceYear dt0 ((dt0.year : Int) + n) = .ok dt1) :
    add_time_delta_tool tz t n u =
      .ok ("Time after adding " ++ intRepStr n ++ " " ++
        (if n.natAbs = 1 then "year" else "years") ++ ": " ++ pyIsoformatMicro dt1) := by
  have hun : unitMicros (pyLower u) = none := by
    rcases hul with h | h <;> rw [h] <;> rfl
  unfold add_time_delta_tool
  rw [hp, ebind_ok]
  simp only [hun]
  rw [if_pos hul]
  simp only [hrep]
  rfl

set_option maxRecDepth 4000 in
theorem add_subtract_roundtrip_years (tz : Tz) (hbnd : tz.offsetMinutes.natAbs < 1440)
    (t : String) (n : Int) (u : String)
    (hul : pyLower u = "year" ∨ pyLower u = "years")
    (dt0 dt1 : PyDateTime) (hp : parse_to_timezone tz t = .ok dt0)
    (hrep : dtReplaceYear dt0 ((dt0.year : Int) + n) = .ok dt1)
    (s : String) (hs : add_time_delta_tool tz t n u = .ok s) :
    subtract_time_delta_tool tz s n u =
      .ok ("Time after subtracting " ++ intRepStr n ++ " " ++
        (if n.natAbs ≠ 1 then u else String.mk (rstripChars ['s'] u.data)) ++ ": " ++
        pyIsoformatMicro dt0) := by
  obtain ⟨hv0, ho0⟩ := parse_to_timezone_props tz t dt0 hp
  rw [add_years_eq tz t n u dt0 dt1 hul hp hrep] at hs
  injection hs with hs2
  subst hs2
  obtain ⟨hv1, hr1eq, hn1, hn2⟩ := dtReplaceYear_props dt0 hv0 _ dt1 hrep
  have ho1 : dt1.offsetMinutes = some tz.offsetMinutes := by
    rw [hr1eq]
    exact ho0
  unfold subtract_time_delta_tool
  have hp2 : parse_to_timezone tz
      ("Time after adding " ++ intRepStr n ++ " " ++
       (if n.natAbs = 1 then "year" else "years") ++ ": " ++ pyIsoformatMicro dt1) =
      .ok dt1 :=
    parse_prefixed_iso tz hbnd _ (years_prefix_no_colon n) dt1 hv1 ho1
  have hrep2 : dtReplaceYear dt1 ((dt1.year : Int) + -n) = .ok dt0 := by
    have hyr : (dt1.year : Int) + -n = (dt0.year : Int) := by
      rw [hr1eq]
      show ((((dt0.year : Int) + n).toNat : Int)) + -n = (dt0.year : Int)
      omega
    rw [hyr]
    unfold dtReplaceYear
    obtain ⟨⟨hy1, hy2, _, _, _, hd2⟩, _, _, _, _⟩ := hv0
    rw [if_pos ?hc]
    case hc =>
      refine ⟨by exact_mod_cast hy1, by exact_mod_cast hy2, ?_⟩
      rw [hr1eq]
      show dt0.day ≤ daysInMonth (dt0.year : Int).toNat dt0.month
      rw [Int.toNat_natCast]
      exact hd2
    rw [hr1eq]
    show Except.ok ({ dt0 with year := (dt0.year : Int).toNat } : PyDateTime) = _
    rw [Int.toNat_natCast]
  rw [add_years_eq tz _ (-n) u dt1 dt0 hul hp2 hrep2]
  simp only [exceptBind_ok, ebind_ok]
  have hlast : afterLastSep ("Time after adding " ++ intRepStr (-n) ++ " " ++
      (if (-n).natAbs = 1 then "year" else "years") ++ ": " ++
      pyIsoformatMicro dt0).data = some (isoChars dt0) := by
    rw [annotated_data]
    exact afterLastSep_append _ _ (colonSafe_afterLastSep _ (colonSafe_isoChars dt0))
  simp only [hlast]
  rfl

/-! ## The agent graph (`src/app/agent.py`)

The language-model capability is an external collaborator; it is modelled
by an `Oracle` of arbitrary functions of the conversation.  The graph
executor is the framework's state machine; following the spec (sections 2,
5 and 9; design note: "a registry of named nodes, … an executor loop that
applies edges until a terminal node is reached"), it is modelled as a step
function over a node tag and the conversation state, where a node's
returned mapping replaces the named state channels (the framework's
last-value channels) and `messages` is append-only (`add_messages`). -/

/-- A tool call emitted by the model-decision step; `args` holds the
rendered form of the argument mapping, which the model passes through to
the tool and interpolates into error messages. -/
structure ToolCall where
  name : String
  args : String
  id : String
  deriving Repr, DecidableEq

/-- A conversation entry (LangChain message kinds used by the code). -/
inductive Msg where
  | human (content : String)
  | system (content : String)
  | ai (content : String) (tool_calls : List ToolCall)
  | tool (content : String) (name : String) (id : String)
  deriving Repr, DecidableEq

/-- `tool_calls` of a message (non-AI messages carry none). -/
def Msg.toolCalls : Msg → List ToolCall
  | .ai _ tc => tc
  | _ => []

/-- `isinstance(msg, AIMessage)`. -/
def Msg.isAI : Msg → Bool
  | .ai _ _ => true
  | _ => false

/-- Terminal status values of the pipeline (the spec's
success/partial/failure/rejected; `partialResult` renders as
`"partial"`). -/
inductive Status where
  | success
  | partialResult
  | failure
  | rejected
  deriving Repr, DecidableEq

/-- Modelled from the spec: the conversation state threaded through the
graph.  The first seven fields are exactly `schemas.AgentState` of
`src/app/schemas.py`; `plan`, `tools_missing` and `status` are the
additional channels of the spec's ConversationState (section 3) that the
nodes of `src/app/agent.py` write and read but that are absent from the
`AgentState` declaration in `src/`. -/
structure AgentState where
  messages : List Msg
  tool_iteration_count : Nat
  is_profiling : Option Bool
  username : Option String
  start_time : Option String
  end_time : Option String
  agent_summary : Option String
  plan : Option String
  tools_missing : Option Bool
  status : Option Status
  deriving Repr, DecidableEq

/-- One invocation round of the decision node's model calls: the
two-sentence reasoning, the tool-binding response, and the structured
metadata extraction. -/
structure AgentDecision where
  reasoning : String
  aiContent : String
  toolCalls : List ToolCall
  metaUsername : Option String
  metaStart : Option String
  metaEnd : Option String

/-- Result of the plan-analysis model call (`PlanAnalysisResult`;
modelled from the spec, the schema class is not in `src/`). -/
inductive PlanDecision where
  | missingTools (details : Option String)
  | allAvailable (details : Option String)

/-- Result of the finalize model call (`FinalizeOutput`; modelled from
the spec, the schema class is not in `src/`): the prompt instructs
`status ∈ {success, partial}`. -/
structure FinalizeResult where
  summary : String
  status : Status

/-- The language-model capability and the tool implementations, as an
opaque environment: each field models one `_model_*.invoke(...)` call (a
function of the messages it is shown), and `toolExec` models
`TOOLS_BY_NAME[name].invoke(args)` (`Except.error` = a raised
exception's `str(e)`). -/
structure Oracle where
  classify : List Msg → Bool
  plan : List Msg → String
  analyze : String → PlanDecision
  agentStep : List Msg → AgentDecision
  finalize : List Msg → FinalizeResult
  toolExec : String → String → Except String String

/-- Modelled from the spec: `AVAILABLE_TOOL_NAMES`, the Tool Registry's
`names()` listing.  `agent.py` imports it from `tools.py`, where only
`TOOLS`/`TOOLS_BY_NAME`/`TOOL_LIST` appear in `src/`; per the spec
(section 4.2) it lists the registered tool names, in registration
order. -/
def AVAILABLE_TOOL_NAMES : List String :=
  ["get_current_datetime_info_tool", "get_one_hour_ago_tool",
   "parse_time_to_timezone_tool", "format_time_for_display_tool",
   "parse_and_format_time_tool", "safe_parse_time_tool",
   "add_time_delta_tool", "subtract_time_delta_tool", "check_weekday_tool"]

/-- Python list repr of the available names, as the f-string in
`tool_node`'s unknown-tool message renders it. -/
def availableToolNamesRepr : String :=
  "[" ++ String.intercalate ", " (AVAILABLE_TOOL_NAMES.map (fun s => "'" ++ s ++ "'")) ++ "]"

/-- `GLOBAL_SYSTEM_PROMPT` of `src/app/prompts.py`. -/
def GLOBAL_SYSTEM_PROMPT : String :=
  "You are a profiling assistant. Your task is to extract time ranges and metadata from user queries. " ++
  "You should NOT attempt to retrieve actual profiling data (CPU usage, memory, etc.) - that functionality is not yet implemented. " ++
  "Focus only on extracting time windows and user information. " ++
  "For absolute time references, construct ISO 8601 timestamps directly. " ++
  "Use tools only for relative times, parsing ambiguous formats, or timezone conversions. " ++
  "Keep responses concise and accurate."

/-- Python truthiness of an optional string (`None` and `""` are falsy). -/
def pyTruthy : Option String → Bool
  | none => false
  | some s => !(s == "")

/-- Python `a or b` on optional strings. -/
def pyOr (a b : Option String) : Option String := if pyTruthy a then a else b

/-- `classify_query` of `agent.py`: runs the classifier and writes
`is_profiling`. -/
def classify_query (O : Oracle) (st : AgentState) : AgentState :=
  { st with is_profiling := some (O.classify st.messages) }

/-- `send_rejection` of `agent.py`. -/
def send_rejection (st : AgentState) : AgentState :=
  { st with
    agent_summary := some ("This agent only processes profiling/performance queries. " ++
      "Please ask about profiling data."),
    status := some .rejected }

/-- `generate_plan` of `agent.py`: writes the plan text (possibly `""`
when the model response had no content). -/
def generate_plan (O : Oracle) (st : AgentState) : AgentState :=
  { st with plan := some (O.plan st.messages) }

/-- `analyze_plan` of `agent.py`: no-op on a falsy plan; on a
`MISSING_TOOLS` decision writes the failure summary/status/flag; otherwise
appends the approved-plan system message and clears the flag. -/
def analyze_plan (O : Oracle) (st : AgentState) : AgentState :=
  match st.plan with
  | none => st
  | some p =>
    if p = "" then st
    else
      match O.analyze p with
      | .missingTools details =>
        { st with
          agent_summary := some ("MISSING_TOOLS: " ++
            pyStrip ((pyOr details (some "Required tools are not available.")).getD "")),
          status := some .failure,
          tools_missing := some true }
      | .allAvailable _ =>
        { st with
          messages := st.messages ++ [.system ("APPROVED PLAN:\n" ++ p ++
            "\n\nFollow this plan step by step. Use actual tool execution results, not example values from the plan.")],
          tools_missing := some false }

/-- `add_system_message` of `agent.py`. -/
def add_system_message (st : AgentState) : AgentState :=
  { st with messages := st.messages ++ [.system GLOBAL_SYSTEM_PROMPT] }

/-- `agent_llm` of `agent.py`: appends the reasoning message and the
tool-binding response, and returns `start_time`/`end_time` set to the
extracted values unconditionally and `username` set to
`state.get("username") or metadata.username`. -/
def agent_llm (O : Oracle) (st : AgentState) : AgentState :=
  let d := O.agentStep st.messages
  { st with
    messages := st.messages ++ [.ai d.reasoning [], .ai d.aiContent d.toolCalls],
    start_time := d.metaStart,
    end_time := d.metaEnd,
    username := pyOr st.username d.metaUsername }

/-- The observation produced for one tool call inside `tool_node`:
unknown name → synthesized error message; raised exception during
`tool.invoke(args)` → caught and rendered; otherwise the tool result. -/
def toolObservation (O : Oracle) (tc : ToolCall) : String :=
  if tc.name ∉ AVAILABLE_TOOL_NAMES then
    "ERROR: Tool '" ++ tc.name ++ "' does not exist. " ++
    "Available tools are: " ++ availableToolNamesRepr ++ ". " ++
    "Please use one of the available tools or provide a text response instead."
  else
    match O.toolExec tc.name tc.args with
    | .ok obs => obs
    | .error e => "ERROR: Invalid arguments for tool '" ++ tc.name ++ "': " ++ e ++
        ". Args provided: " ++ tc.args

/-- `tool_node` of `agent.py`: reads the last message's tool calls,
returns unchanged state when there are none, else appends one
`ToolMessage` per call (content per `toolObservation`, zipped back with
the calls for name/id) and increments `tool_iteration_count` once for the
whole batch. -/
def tool_node (O : Oracle) (st : AgentState) : AgentState :=
  let tool_calls := (st.messages.getLastD (.human "")).toolCalls
  if tool_calls = [] then st
  else
    let observations := tool_calls.map (toolObservation O)
    let tool_outputs := (observations.zip tool_calls).map
      (fun p => Msg.tool p.1 p.2.name p.2.id)
    { st with
      messages := st.messages ++ tool_outputs,
      tool_iteration_count := st.tool_iteration_count + 1 }

/-- `finalize_output` of `agent.py`. -/
def finalize_output (O : Oracle) (st : AgentState) : AgentState :=
  let r := O.finalize st.messages
  { st with agent_summary := some r.summary, status := some r.status }

/-- `routing_after_agent_decision` of `agent.py`: finds the last
AIMessage, checks the iteration cap BEFORE looking at its tool calls, and
only then routes to `"tools"` when calls are pending. -/
def routing_after_agent_decision (maxIter : Nat) (st : AgentState) : String :=
  let last_ai_msg := st.messages.reverse.find? Msg.isAI
  if st.tool_iteration_count ≥ maxIter then "finalize"
  else
    match last_ai_msg with
    | some m => if m.toolCalls ≠ [] then "tools" else "finalize"
    | none => "finalize"

/-- `routing_after_classify` of `agent.py` (`if state["is_profiling"]`:
only `True` is truthy). -/
def routing_after_classify (st : AgentState) : String :=
  if st.is_profiling = some true then "generate_plan" else "reject"

/-- `routing_after_plan_analysis` of `agent.py`
(`state.get("tools_missing") is True`). -/
def routing_after_plan_analysis (st : AgentState) : String :=
  if st.tools_missing = some true then "__end__" else "agent"

/-- Node tags of the compiled graph of `create_agent_executor`
(`endNode` is the framework's END). -/
inductive NodeTag where
  | start | system_prompt | classify_query | generate_plan | analyze_plan
  | agent | tools | reject | finalize | endNode
  deriving Repr, DecidableEq

/-- Modelled from the spec: one transition of the graph executor — run
the current node on the state, then follow the (conditional) edge wired
in `create_agent_executor`; END is absorbing. -/
def stepGraph (O : Oracle) (maxIter : Nat) :
    NodeTag × AgentState → NodeTag × AgentState
  | (.start, st) => (.system_prompt, st)
  | (.system_prompt, st) => (.classify_query, add_system_message st)
  | (.classify_query, st) =>
    let st' := classify_query O st
    (if routing_after_classify st' = "generate_plan" then .generate_plan else .reject, st')
  | (.generate_plan, st) => (.analyze_plan, generate_plan O st)
  | (.analyze_plan, st) =>
    let st' := analyze_plan O st
    (if routing_after_plan_analysis st' = "agent" then .agent else .endNode, st')
  | (.agent, st) =>
    let st' := agent_llm O st
    (if routing_after_agent_decision maxIter st' = "tools" then .tools else .finalize, st')
  | (.tools, st) => (.agent, tool_node O st)
  | (.reject, st) => (.endNode, send_rejection st)
  | (.finalize, st) => (.endNode, finalize_output O st)
  | (.endNode, st) => (.endNode, st)

/-- `k` executor transitions from a configuration. -/
def execGraph (O : Oracle) (maxIter : Nat) (init : NodeTag × AgentState) :
    Nat → NodeTag × AgentState
  | 0 => init
  | k + 1 => stepGraph O maxIter (execGraph O maxIter init k)

/-- `_create_initial_state` of `src/app/main.py`: one human message,
iteration count zero, every other channel unset. -/
def initialState (query : String) : AgentState :=
  { messages := [.human query], tool_iteration_count := 0,
    is_profiling := none, username := none, start_time := none,
    end_time := none, agent_summary := none, plan := none,
    tools_missing := none, status := none }

/-- Number of visits to the decision node (`agent`) in the first `k`
executor transitions. -/
def agentVisits (O : Oracle) (maxIter : Nat) (init : NodeTag × AgentState) : Nat → Nat
  | 0 => 0
  | k + 1 => agentVisits O maxIter init k +
      (if (execGraph O maxIter init k).1 = .agent then 1 else 0)

@[simp] theorem add_system_message_count (st : AgentState) :
    (add_system_message st).tool_iteration_count = st.tool_iteration_count := rfl

@[simp] theorem classify_query_count (O : Oracle) (st : AgentState) :
    (classify_query O st).tool_iteration_count = st.tool_iteration_count := rfl

@[simp] theorem generate_plan_count (O : Oracle) (st : AgentState) :
    (generate_plan O st).tool_iteration_count = st.tool_iteration_count := rfl

@[simp] theorem analyze_plan_count (O : Oracle) (st : AgentState) :
    (analyze_plan O st).tool_iteration_count = st.tool_iteration_count := by
  unfold analyze_plan
  rcases st.plan with _ | p
  · rfl
  · dsimp only
    split
    · rfl
    · split <;> rfl

@[simp] theorem agent_llm_count (O : Oracle) (st : AgentState) :
    (agent_llm O st).tool_iteration_count = st.tool_iteration_count := rfl

@[simp] theorem send_rejection_count (st : AgentState) :
    (send_rejection st).tool_iteration_count = st.tool_iteration_count := rfl

@[simp] theorem finalize_output_count (O : Oracle) (st : AgentState) :
    (finalize_output O st).tool_iteration_count = st.tool_iteration_count := rfl

theorem getLastD_append_two (ms : List Msg) (a b d : Msg) :
    (ms ++ [a, b]).getLastD d = b := by
  have h : ms ++ [a, b] = (ms ++ [a]) ++ [b] := by simp
  rw [h, List.getLastD_concat]

theorem tool_node_count (O : Oracle) (st : AgentState)
    (h : (st.messages.getLastD (.human "")).toolCalls ≠ []) :
    (tool_node O st).tool_iteration_count = st.tool_iteration_count + 1 := by
  simp only [tool_node]
  rw [if_neg h]

theorem find_last_ai_agent_llm (O : Oracle) (st : AgentState) :
    (agent_llm O st).messages.reverse.find? Msg.isAI =
      some (.ai (O.agentStep st.messages).aiContent (O.agentStep st.messages).toolCalls) := by
  show ((st.messages ++
    [Msg.ai (O.agentStep st.messages).reasoning [],
     Msg.ai (O.agentStep st.messages).aiContent (O.agentStep st.messages).toolCalls]).reverse.find?
       Msg.isAI) = _
  rw [List.reverse_append]
  rfl

theorem routing_agent_llm_eq (O : Oracle) (maxIter : Nat) (st : AgentState) :
    routing_after_agent_decision maxIter (agent_llm O st) =
      if maxIter ≤ st.tool_iteration_count then "finalize"
      else if (O.agentStep st.messages).toolCalls = [] then "finalize" else "tools" := by
  simp only [routing_after_agent_decision]
  rw [find_last_ai_agent_llm]
  simp only [agent_llm_count, ge_iff_le, Msg.toolCalls, ite_not]

/-- Executor invariant: the iteration count never exceeds the cap; the
`tools` node is only ever entered with the cap unreached and a pending
batch; before the loop the visit count and iteration count are zero; and
the number of decision-node visits is bounded by the iteration count
(plus one after leaving the decision node). -/
def GraphInv (maxIter : Nat) (c : NodeTag × AgentState) (v : Nat) : Prop :=
  c.2.tool_iteration_count ≤ maxIter ∧
  (c.1 = .tools → c.2.tool_iteration_count < maxIter ∧
    (c.2.messages.getLastD (.human "")).toolCalls ≠ []) ∧
  ((c.1 = .start ∨ c.1 = .system_prompt ∨ c.1 = .classify_query ∨
    c.1 = .generate_plan ∨ c.1 = .analyze_plan) →
      v = 0 ∧ c.2.tool_iteration_count = 0) ∧
  (c.1 = .agent → v ≤ c.2.tool_iteration_count) ∧
  v ≤ c.2.tool_iteration_count + 1

theorem graphInv_step (O : Oracle) (maxIter : Nat) (p : NodeTag) (st : AgentState) (v : Nat)
    (h : GraphInv maxIter (p, st) v) :
    GraphInv maxIter (stepGraph O maxIter (p, st))
      (v + if p = .agent then 1 else 0) := by
  obtain ⟨h1, h2, h3, h4, h5⟩ := h
  dsimp only at h1 h2 h3 h4 h5
  unfold GraphInv
  cases p with
  | start =>
    rw [show (v + if NodeTag.start = NodeTag.agent then 1 else 0) = v from rfl]
    have hstep : stepGraph O maxIter (.start, st) = (NodeTag.system_prompt, st) := rfl
    rw [hstep]
    dsimp only
    exact ⟨h1, fun hcon => absurd hcon (by decide), fun _ => h3 (Or.inl rfl),
      fun hcon => absurd hcon (by decide), by simpa using h5⟩
  | system_prompt =>
    rw [show (v + if NodeTag.system_prompt = NodeTag.agent then 1 else 0) = v from rfl]
    have hstep : stepGraph O maxIter (.system_prompt, st) =
        (NodeTag.classify_query, add_system_message st) := rfl
    rw [hstep]
    dsimp only
    exact ⟨h1, fun hcon => absurd hcon (by decide), fun _ => h3 (Or.inr (Or.inl rfl)),
      fun hcon => absurd hcon (by decide), by simpa using h5⟩
  | classify_query =>
    rw [show (v + if NodeTag.classify_query = NodeTag.agent then 1 else 0) = v from rfl]
    obtain ⟨hv, hc⟩ := h3 (Or.inr (Or.inr (Or.inl rfl)))
    have hstep : stepGraph O maxIter (.classify_query, st) =
        (if routing_after_classify (classify_query O st) = "generate_plan"
          then NodeTag.generate_plan else NodeTag.reject, classify_query O st) := rfl
    rw [hstep]
    dsimp only
    by_cases hr : routing_after_classify (classify_query O st) = "generate_plan"
    · rw [if_pos hr]
      exact ⟨h1, fun hcon => absurd hcon (by decide), fun _ => ⟨by simpa using hv, hc⟩,
        fun hcon => absurd hcon (by decide), by simpa using h5⟩
    · rw [if_neg hr]
      refine ⟨h1, fun hcon => absurd hcon (by decide), ?_, fun hcon => absurd hcon (by decide), by simpa using h5⟩
      intro hpre
      rcases hpre with hx | hx | hx | hx | hx <;> exact absurd hx (by decide)
  | generate_plan =>
    rw [show (v + if NodeTag.generate_plan = NodeTag.agent then 1 else 0) = v from rfl]
    have hstep : stepGraph O maxIter (.generate_plan, st) =
        (NodeTag.analyze_plan, generate_plan O st) := rfl
    rw [hstep]
    dsimp only
    exact ⟨h1, fun hcon => absurd hcon (by decide), fun _ => h3 (Or.inr (Or.inr (Or.inr (Or.inl rfl)))),
      fun hcon => absurd hcon (by decide), by simpa using h5⟩
  | analyze_plan =>
    rw [show (v + if NodeTag.analyze_plan = NodeTag.agent then 1 else 0) = v from rfl]
    obtain ⟨hv, hc⟩ := h3 (Or.inr (Or.inr (Or.inr (Or.inr rfl))))
    have hstep : stepGraph O maxIter (.analyze_plan, st) =
        (if routing_after_plan_analysis (analyze_plan O st) = "agent"
          then NodeTag.agent else NodeTag.endNode, analyze_plan O st) := rfl
    rw [hstep]
    dsimp only
    have hcnt := analyze_plan_count O st
    by_cases hr : routing_after_plan_analysis (analyze_plan O st) = "agent"
    · rw [if_pos hr]
      refine ⟨by omega, fun hcon => absurd hcon (by decide), ?_, fun _ => by omega, by omega⟩
      intro hpre
      rcases hpre with hx | hx | hx | hx | hx <;> exact absurd hx (by decide)
    · rw [if_neg hr]
      refine ⟨by omega, fun hcon => absurd hcon (by decide), ?_, fun hcon => absurd hcon (by decide), by omega⟩
      intro hpre
      rcases hpre with hx | hx | hx | hx | hx <;> exact absurd hx (by decide)
  | agent =>
    rw [show (v + if NodeTag.agent = NodeTag.agent then 1 else 0) = v + 1 from rfl]
    have h4' := h4 rfl
    have hcnt : (agent_llm O st).tool_iteration_count = st.tool_iteration_count := rfl
    have hstep : stepGraph O maxIter (.agent, st) =
        (if routing_after_agent_decision maxIter (agent_llm O st) = "tools"
          then NodeTag.tools else NodeTag.finalize, agent_llm O st) := rfl
    rw [hstep]
    dsimp only
    by_cases hr : routing_after_agent_decision maxIter (agent_llm O st) = "tools"
    · rw [if_pos hr]
      rw [routing_agent_llm_eq] at hr
      have hlt : st.tool_iteration_count < maxIter := by
        by_contra hge
        rw [if_pos (by omega)] at hr
        exact absurd hr (by decide)
      rw [if_neg (by omega)] at hr
      have hne : (O.agentStep st.messages).toolCalls ≠ [] := by
        intro hnil
        rw [if_pos hnil] at hr
        exact absurd hr (by decide)
      refine ⟨by omega, fun _ => ⟨by omega, ?_⟩, ?_,
        fun hcon => absurd hcon (by decide), by omega⟩
      · have hmsg : (agent_llm O st).messages = st.messages ++
          [Msg.ai (O.agentStep st.messages).reasoning [],
           Msg.ai (O.agentStep st.messages).aiContent (O.agentStep st.messages).toolCalls] := rfl
        rw [hmsg, getLastD_append_two]
        exact hne
      · intro hpre
        rcases hpre with hx | hx | hx | hx | hx <;> exact absurd hx (by decide)
    · rw [if_neg hr]
      refine ⟨by omega, fun hcon => absurd hcon (by decide), ?_,
        fun hcon => absurd hcon (by decide), by omega⟩
      intro hpre
      rcases hpre with hx | hx | hx | hx | hx <;> exact absurd hx (by decide)
  | tools =>
    rw [show (v + if NodeTag.tools = NodeTag.agent then 1 else 0) = v from rfl]
    obtain ⟨hlt, hne⟩ := h2 rfl
    have hcnt := tool_node_count O st hne
    have hstep : stepGraph O maxIter (.tools, st) = (NodeTag.agent, tool_node O st) := rfl
    rw [hstep]
    dsimp only
    refine ⟨by omega, fun hcon => absurd hcon (by decide), ?_, fun _ => by omega, by omega⟩
    intro hpre
    rcases hpre with hx | hx | hx | hx | hx <;> exact absurd hx (by decide)
  | reject =>
    rw [show (v + if NodeTag.reject = NodeTag.agent then 1 else 0) = v from rfl]
    have hstep : stepGraph O maxIter (.reject, st) = (NodeTag.endNode, send_rejection st) := rfl
    rw [hstep]
    dsimp only
    refine ⟨h1, fun hcon => absurd hcon (by decide), ?_, fun hcon => absurd hcon (by decide), by simpa using h5⟩
    intro hpre
    rcases hpre with hx | hx | hx | hx | hx <;> exact absurd hx (by decide)
  | finalize =>
    rw [show (v + if NodeTag.finalize = NodeTag.agent then 1 else 0) = v from rfl]
    have hstep : stepGraph O maxIter (.finalize, st) =
        (NodeTag.endNode, finalize_output O st) := rfl
    rw [hstep]
    dsimp only
    refine ⟨h1, fun hcon => absurd hcon (by decide), ?_, fun hcon => absurd hcon (by decide), by simpa using h5⟩
    intro hpre
    rcases hpre with hx | hx | hx | hx | hx <;> exact absurd hx (by decide)
  | endNode =>
    rw [show (v + if NodeTag.endNode = NodeTag.agent then 1 else 0) = v from rfl]
    have hstep : stepGraph O maxIter (.endNode, st) = (NodeTag.endNode, st) := rfl
    rw [hstep]
    dsimp only
    refine ⟨h1, fun hcon => absurd hcon (by decide), ?_, fun hcon => absurd hcon (by decide), by simpa using h5⟩
    intro hpre
    rcases hpre with hx | hx | hx | hx | hx <;> exact absurd hx (by decide)

theorem graphInv_exec (O : Oracle) (maxIter : Nat) (q : String) (k : Nat) :
    GraphInv maxIter (execGraph O maxIter (.start, initialState q) k)
      (agentVisits O maxIter (.start, initialState q) k) := by
  induction k with
  | zero =>
    have h0 : execGraph O maxIter (.start, initialState q) 0 =
        (NodeTag.start, initialState q) := rfl
    have hv0 : agentVisits O maxIter (.start, initialState q) 0 = 0 := rfl
    rw [h0, hv0]
    unfold GraphInv
    dsimp only
    exact ⟨Nat.zero_le _, fun hcon => absurd hcon (by decide), fun _ => ⟨rfl, rfl⟩,
      fun hcon => absurd hcon (by decide), Nat.le_succ 0⟩
  | succ k ih =>
    exact graphInv_step O maxIter (execGraph O maxIter (.start, initialState q) k).1
      (execGraph O maxIter (.start, initialState q) k).2
      (agentVisits O maxIter (.start, initialState q) k) ih

/-- Termination potential of an executor configuration: strictly
decreasing along every transition out of a non-END node (given the
executor invariant). -/
def potential (maxIter : Nat) : NodeTag × AgentState → Nat
  | (.endNode, _) => 0
  | (.finalize, _) => 1
  | (.reject, _) => 1
  | (.tools, st) => 2 * (maxIter - st.tool_iteration_count) + 2
  | (.agent, st) => 2 * (maxIter - st.tool_iteration_count) + 3
  | (.analyze_plan, _) => 2 * maxIter + 4
  | (.generate_plan, _) => 2 * maxIter + 5
  | (.classify_query, _) => 2 * maxIter + 6
  | (.system_prompt, _) => 2 * maxIter + 7
  | (.start, _) => 2 * maxIter + 8

theorem potential_pos (maxIter : Nat) (p : NodeTag) (st : AgentState)
    (h : p ≠ .endNode) : 1 ≤ potential maxIter (p, st) := by
  cases p <;> first
    | exact absurd rfl h
    | (simp only [potential]; omega)

theorem potential_step (O : Oracle) (maxIter : Nat) (p : NodeTag) (st : AgentState) (v : Nat)
    (h : GraphInv maxIter (p, st) v) (hne : p ≠ .endNode) :
    potential maxIter (stepGraph O maxIter (p, st)) < potential maxIter (p, st) := by
  obtain ⟨h1, h2, h3, h4, h5⟩ := h
  dsimp only at h1 h2 h3 h4 h5
  cases p with
  | start =>
    show potential maxIter (NodeTag.system_prompt, st) < _
    simp only [potential]; omega
  | system_prompt =>
    show potential maxIter (NodeTag.classify_query, add_system_message st) < _
    simp only [potential]; omega
  | classify_query =>
    have hstep : stepGraph O maxIter (.classify_query, st) =
        (if routing_after_classify (classify_query O st) = "generate_plan"
          then NodeTag.generate_plan else NodeTag.reject, classify_query O st) := rfl
    rw [hstep]
    by_cases hr : routing_after_classify (classify_query O st) = "generate_plan"
    · rw [if_pos hr]; simp only [potential]; omega
    · rw [if_neg hr]; simp only [potential]; omega
  | generate_plan =>
    show potential maxIter (NodeTag.analyze_plan, generate_plan O st) < _
    simp only [potential]; omega
  | analyze_plan =>
    have hcnt := analyze_plan_count O st
    have hstep : stepGraph O maxIter (.analyze_plan, st) =
        (if routing_after_plan_analysis (analyze_plan O st) = "agent"
          then NodeTag.agent else NodeTag.endNode, analyze_plan O st) := rfl
    rw [hstep]
    by_cases hr : routing_after_plan_analysis (analyze_plan O st) = "agent"
    · rw [if_pos hr]; simp only [potential]; omega
    · rw [if_neg hr]; simp only [potential]; omega
  | agent =>
    have hcnt : (agent_llm O st).tool_iteration_count = st.tool_iteration_count := rfl
    have hstep : stepGraph O maxIter (.agent, st) =
        (if routing_after_agent_decision maxIter (agent_llm O st) = "tools"
          then NodeTag.tools else NodeTag.finalize, agent_llm O st) := rfl
    rw [hstep]
    by_cases hr : routing_after_agent_decision maxIter (agent_llm O st) = "tools"
    · rw [if_pos hr]; simp only [potential]; omega
    · rw [if_neg hr]; simp only [potential]; omega
  | tools =>
    obtain ⟨hlt, hcalls⟩ := h2 rfl
    have hcnt := tool_node_count O st hcalls
    show potential maxIter (NodeTag.agent, tool_node O st) < _
    simp only [potential]; omega
  | reject =>
    show potential maxIter (NodeTag.endNode, send_rejection st) < _
    simp only [potential]; omega
  | finalize =>
    show potential maxIter (NodeTag.endNode, finalize_output O st) < _
    simp only [potential]; omega
  | endNode => exact absurd rfl hne

theorem stepGraph_end (O : Oracle) (maxIter : Nat) (c : NodeTag × AgentState)
    (h : c.1 = .endNode) : (stepGraph O maxIter c).1 = .endNode := by
  have hc : c = (NodeTag.endNode, c.2) := Prod.ext h rfl
  rw [hc]
  rfl

theorem potential_exec (O : Oracle) (maxIter : Nat) (q : String) (k : Nat) :
    (execGraph O maxIter (.start, initialState q) k).1 = .endNode ∨
    potential maxIter (execGraph O maxIter (.start, initialState q) k) + k ≤
      2 * maxIter + 8 := by
  induction k with
  | zero =>
    right
    have h0 : execGraph O maxIter (.start, initialState q) 0 =
        (NodeTag.start, initialState q) := rfl
    rw [h0]
    simp only [potential]
    omega
  | succ k ih =>
    by_cases hend : (execGraph O maxIter (.start, initialState q) k).1 = .endNode
    · left
      exact stepGraph_end O maxIter _ hend
    · rcases ih with hend' | hle
      · exact absurd hend' hend
      · right
        have hinv := graphInv_exec O maxIter q k
        have hlt := potential_step O maxIter
          (execGraph O maxIter (.start, initialState q) k).1
          (execGraph O maxIter (.start, initialState q) k).2
          (agentVisits O maxIter (.start, initialState q) k) hinv hend
        have heta : ((execGraph O maxIter (.start, initialState q) k).1,
            (execGraph O maxIter (.start, initialState q) k).2) =
            execGraph O maxIter (.start, initialState q) k := rfl
        rw [heta] at hlt
        have hstep : execGraph O maxIter (.start, initialState q) (k + 1) =
            stepGraph O maxIter (execGraph O maxIter (.start, initialState q) k) := rfl
        rw [hstep]
        omega

/-- C1: For every oracle (model behaviour), iteration cap and query, the
agent loop terminates: the number of decision-node (`agent`) visits never
exceeds `max_tool_iterations + 1`, `tool_iteration_count` never exceeds
the configured maximum, the executor reaches END within `2*max + 8`
transitions, and once `routing_after_agent_decision` observes
`tool_iteration_count >= max_tool_iterations` it returns `"finalize"`
for every state, including states whose last decision still carries
pending tool calls. -/
theorem C1_agent_loop_bounded (O : Oracle) (maxIter : Nat) (q : String) :
    (∀ k, agentVisits O maxIter (.start, initialState q) k ≤ maxIter + 1) ∧
    (∀ k, (execGraph O maxIter (.start, initialState q) k).2.tool_iteration_count ≤ maxIter) ∧
    (execGraph O maxIter (.start, initialState q) (2 * maxIter + 8)).1 = NodeTag.endNode ∧
    (∀ st : AgentState, maxIter ≤ st.tool_iteration_count →
      routing_after_agent_decision maxIter st = "finalize") := by
  refine ⟨?_, ?_, ?_, ?_⟩
  · intro k
    obtain ⟨h1, _, _, _, h5⟩ := graphInv_exec O maxIter q k
    omega
  · intro k
    exact (graphInv_exec O maxIter q k).1
  · rcases potential_exec O maxIter q (2 * maxIter + 8) with h | h
    · exact h
    · by_contra hne
      have hpos := potential_pos maxIter
        (execGraph O maxIter (.start, initialState q) (2 * maxIter + 8)).1
        (execGraph O maxIter (.start, initialState q) (2 * maxIter + 8)).2 hne
      have heta : ((execGraph O maxIter (.start, initialState q) (2 * maxIter + 8)).1,
          (execGraph O maxIter (.start, initialState q) (2 * maxIter + 8)).2) =
          execGraph O maxIter (.start, initialState q) (2 * maxIter + 8) := rfl
      rw [heta] at hpos
      omega
  · intro st hcap
    simp only [routing_after_agent_decision]
    rw [if_pos hcap]

/-- A model stub that always emits one more tool call, used to witness
the loop bound concretely (the spec's "mock that always emits tool
calls"). -/
def alwaysToolsOracle : Oracle where
  classify := fun _ => true
  plan := fun _ => "use get_current_datetime_info_tool repeatedly"
  analyze := fun _ => .allAvailable none
  agentStep := fun _ =>
    { reasoning := "I know the query. I will call the time tool again.",
      aiContent := "",
      toolCalls := [⟨"get_current_datetime_info_tool", "", "call1"⟩],
      metaUsername := none, metaStart := none, metaEnd := none }
  finalize := fun _ => { summary := "done", status := .success }
  toolExec := fun _ _ => .ok "obs"

theorem C1_agent_loop_bounded_witness :
    agentVisits alwaysToolsOracle 2 (.start, initialState "profile cpu") 12 ≤ 3 ∧
    (execGraph alwaysToolsOracle 2 (.start, initialState "profile cpu") 12).1 =
      NodeTag.endNode ∧
    routing_after_agent_decision 2
      { messages := [.ai "go" [⟨"get_current_datetime_info_tool", "", "1"⟩]],
        tool_iteration_count := 2, is_profiling := some true, username := none,
        start_time := none, end_time := none, agent_summary := none, plan := none,
        tools_missing := none, status := none } = "finalize" :=
  ⟨(C1_agent_loop_bounded alwaysToolsOracle 2 "profile cpu").1 12,
   (C1_agent_loop_bounded alwaysToolsOracle 2 "profile cpu").2.2.1,
   (C1_agent_loop_bounded alwaysToolsOracle 2 "profile cpu").2.2.2
     { messages := [.ai "go" [⟨"get_current_datetime_info_tool", "", "1"⟩]],
       tool_iteration_count := 2, is_profiling := some true, username := none,
       start_time := none, end_time := none, agent_summary := none, plan := none,
       tools_missing := none, status := none } (by decide)⟩

theorem analyze_plan_missing (O : Oracle) (st : AgentState) (p : String)
    (details : Option String) (hplan : st.plan = some p) (hne : p ≠ "")
    (han : O.analyze p = .missingTools details) :
    analyze_plan O st = { st with
      agent_summary := some ("MISSING_TOOLS: " ++
        pyStrip ((pyOr details (some "Required tools are not available.")).getD "")),
      status := some .failure,
      tools_missing := some true } := by
  unfold analyze_plan
  rw [hplan]
  dsimp only
  rw [if_neg hne, han]

theorem exec_end_absorb (O : Oracle) (maxIter : Nat) (init : NodeTag × AgentState)
    (k : Nat) (h : (execGraph O maxIter init k).1 = .endNode) :
    ∀ j, (execGraph O maxIter init (k + j)).1 = .endNode := by
  intro j
  induction j with
  | zero => exact h
  | succ j ih => exact stepGraph_end O maxIter _ ih

/-- C6: In every run whose plan analysis reports a missing tool (the
classifier accepts, the planner produces a non-empty plan, and the
analysis model answers `MISSING_TOOLS` with the given details), the
pipeline reaches END after the analyze node (five executor transitions)
with `status = failure`, `tools_missing = true`, and an agent summary
prefixed `"MISSING_TOOLS: "`, and the decision node `agent` is never
entered at any step. -/
theorem C6_missing_tools (O : Oracle) (maxIter : Nat) (q : String)
    (details : Option String)
    (hcl : ∀ ms, O.classify ms = true)
    (hplne : ∀ ms, O.plan ms ≠ "")
    (han : ∀ p, O.analyze p = .missingTools details) :
    (execGraph O maxIter (.start, initialState q) 5).1 = NodeTag.endNode ∧
    (execGraph O maxIter (.start, initialState q) 5).2.status = some .failure ∧
    (execGraph O maxIter (.start, initialState q) 5).2.tools_missing = some true ∧
    (execGraph O maxIter (.start, initialState q) 5).2.agent_summary =
      some ("MISSING_TOOLS: " ++
        pyStrip ((pyOr details (some "Required tools are not available.")).getD "")) ∧
    ∀ k, (execGraph O maxIter (.start, initialState q) k).1 ≠ NodeTag.agent := by
  have e0 : execGraph O maxIter (.start, initialState q) 0 =
      (NodeTag.start, initialState q) := rfl
  have e1 : execGraph O maxIter (.start, initialState q) 1 =
      (NodeTag.system_prompt, initialState q) := rfl
  have e2 : execGraph O maxIter (.start, initialState q) 2 =
      (NodeTag.classify_query, add_system_message (initialState q)) := rfl
  have hroutec : routing_after_classify
      (classify_query O (add_system_message (initialState q))) = "generate_plan" := by
    simp [routing_after_classify, classify_query, hcl]
  have e3 : execGraph O maxIter (.start, initialState q) 3 =
      (NodeTag.generate_plan, classify_query O (add_system_message (initialState q))) := by
    have hs : execGraph O maxIter (.start, initialState q) 3 =
        stepGraph O maxIter (execGraph O maxIter (.start, initialState q) 2) := rfl
    rw [hs, e2]
    show (if routing_after_classify (classify_query O (add_system_message (initialState q))) =
        "generate_plan" then NodeTag.generate_plan else NodeTag.reject,
      classify_query O (add_system_message (initialState q))) = _
    rw [hroutec, if_pos rfl]
  have e4 : execGraph O maxIter (.start, initialState q) 4 =
      (NodeTag.analyze_plan,
        generate_plan O (classify_query O (add_system_message (initialState q)))) := by
    have hs : execGraph O maxIter (.start, initialState q) 4 =
        stepGraph O maxIter (execGraph O maxIter (.start, initialState q) 3) := rfl
    rw [hs, e3]
    rfl
  have hana := analyze_plan_missing O
    (generate_plan O (classify_query O (add_system_message (initialState q))))
    (O.plan (classify_query O (add_system_message (initialState q))).messages)
    details rfl (hplne _) (han _)
  have hrt : routing_after_plan_analysis (analyze_plan O
      (generate_plan O (classify_query O (add_system_message (initialState q))))) =
      "__end__" := by
    rw [hana]
    rfl
  have e5 : execGraph O maxIter (.start, initialState q) 5 =
      (NodeTag.endNode, analyze_plan O
        (generate_plan O (classify_query O (add_system_message (initialState q))))) := by
    have hs : execGraph O maxIter (.start, initialState q) 5 =
        stepGraph O maxIter (execGraph O maxIter (.start, initialState q) 4) := rfl
    rw [hs, e4]
    show (if routing_after_plan_analysis (analyze_plan O
        (generate_plan O (classify_query O (add_system_message (initialState q))))) = "agent"
      then NodeTag.agent else NodeTag.endNode, _) = _
    rw [hrt, if_neg (by decide)]
  refine ⟨by rw [e5], ?_, ?_, ?_, ?_⟩
  · rw [e5]; dsimp only; rw [hana]
  · rw [e5]; dsimp only; rw [hana]
  · rw [e5]; dsimp only; rw [hana]
  · intro k
    rcases Nat.lt_or_ge k 5 with hk | hk
    · interval_cases k
      · intro hcon; rw [e0] at hcon; dsimp only at hcon; exact absurd hcon (by decide)
      · intro hcon; rw [e1] at hcon; dsimp only at hcon; exact absurd hcon (by decide)
      · intro hcon; rw [e2] at hcon; dsimp only at hcon; exact absurd hcon (by decide)
      · intro hcon; rw [e3] at hcon; dsimp only at hcon; exact absurd hcon (by decide)
      · intro hcon; rw [e4] at hcon; dsimp only at hcon; exact absurd hcon (by decide)
    · have habs := exec_end_absorb O maxIter (.start, initialState q) 5 (by rw [e5])
      obtain ⟨j, rfl⟩ : ∃ j, k = 5 + j := ⟨k - 5, by omega⟩
      intro hcon
      rw [habs j] at hcon
      exact absurd hcon (by decide)

/-- A model stub whose plan analysis always reports a missing tool. -/
def missingToolsOracle : Oracle where
  classify := fun _ => true
  plan := fun _ => "use the frobnicate_tool to frobnicate"
  analyze := fun _ => .missingTools (some "frobnicate_tool is not available")
  agentStep := fun _ =>
    { reasoning := "", aiContent := "", toolCalls := [],
      metaUsername := none, metaStart := none, metaEnd := none }
  finalize := fun _ => { summary := "done", status := .success }
  toolExec := fun _ _ => .ok "obs"

theorem C6_missing_tools_witness :
    (execGraph missingToolsOracle 10 (.start, initialState "profile memory") 5).1 =
      NodeTag.endNode ∧
    (execGraph missingToolsOracle 10 (.start, initialState "profile memory") 5).2.status =
      some .failure ∧
    (execGraph missingToolsOracle 10 (.start, initialState "profile memory") 5).2.tools_missing =
      some true ∧
    (execGraph missingToolsOracle 10 (.start, initialState "profile memory") 5).2.agent_summary =
      some ("MISSING_TOOLS: " ++
        pyStrip ((pyOr (some "frobnicate_tool is not available")
          (some "Required tools are not available.")).getD "")) ∧
    (execGraph missingToolsOracle 10 (.start, initialState "profile memory") 7).1 ≠
      NodeTag.agent := by
  have h := C6_missing_tools missingToolsOracle 10 "profile memory"
    (some "frobnicate_tool is not available")
    (fun _ => rfl)
    (fun _ => by
      show ("use the frobnicate_tool to frobnicate" : String) ≠ ""
      decide)
    (fun _ => rfl)
  exact ⟨h.1, h.2.1, h.2.2.1, h.2.2.2.1, h.2.2.2.2 7⟩

theorem zip_map_tool (f : ToolCall → String) (calls : List ToolCall) :
    ((calls.map f).zip calls).map (fun p => Msg.tool p.1 p.2.name p.2.id) =
      calls.map (fun tc => Msg.tool (f tc) tc.name tc.id) := by
  induction calls with
  | nil => rfl
  | cons c cs ih => simp only [List.map_cons, List.zip_cons_cons, ih]

/-- C7: When the last message carries a non-empty batch of tool calls,
`tool_node` appends exactly one tool-result message per call, in call
order, each with the per-call observation, and increments the iteration
count once; a call naming an unregistered tool yields the synthesized
unknown-tool error message listing the available names, and a call whose
execution raises is converted to the invalid-arguments error text — both
per-call, so neither aborts the sibling calls of the batch. -/
theorem C7_tool_node_batch (O : Oracle) (st : AgentState) (c : String)
    (calls : List ToolCall)
    (hlast : st.messages.getLastD (.human "") = .ai c calls) (hne : calls ≠ []) :
    (tool_node O st).messages = st.messages ++
      calls.map (fun tc => Msg.tool (toolObservation O tc) tc.name tc.id) ∧
    (tool_node O st).tool_iteration_count = st.tool_iteration_count + 1 ∧
    (∀ tc : ToolCall, tc.name ∉ AVAILABLE_TOOL_NAMES →
      toolObservation O tc = "ERROR: Tool '" ++ tc.name ++ "' does not exist. " ++
        "Available tools are: " ++ availableToolNamesRepr ++ ". " ++
        "Please use one of the available tools or provide a text response instead.") ∧
    (∀ (tc : ToolCall) (e : String), tc.name ∈ AVAILABLE_TOOL_NAMES →
      O.toolExec tc.name tc.args = .error e →
      toolObservation O tc = "ERROR: Invalid arguments for tool '" ++ tc.name ++ "': " ++
        e ++ ". Args provided: " ++ tc.args) := by
  have hcalls : (st.messages.getLastD (.human "")).toolCalls = calls := by
    rw [hlast]
    rfl
  refine ⟨?_, ?_, ?_, ?_⟩
  · simp only [tool_node, hcalls]
    rw [if_neg hne]
    dsimp only
    rw [zip_map_tool]
  · exact tool_node_count O st (by rw [hcalls]; exact hne)
  · intro tc hnot
    simp only [toolObservation]
    rw [if_pos hnot]
  · intro tc e hmem herr
    simp only [toolObservation]
    rw [if_neg (not_not_intro hmem), herr]

/-- An environment whose `add_time_delta_tool` invocation raises while
other registered tools succeed, for exercising per-call isolation. -/
def batchOracle : Oracle where
  classify := fun _ => true
  plan := fun _ => "p"
  analyze := fun _ => .allAvailable none
  agentStep := fun _ =>
    { reasoning := "", aiContent := "", toolCalls := [],
      metaUsername := none, metaStart := none, metaEnd := none }
  finalize := fun _ => { summary := "", status := .success }
  toolExec := fun n a =>
    if n = "add_time_delta_tool" then .error ("Unexpected argument " ++ a)
    else .ok ("ok:" ++ n)

/-- A state whose last message carries three tool calls: a registered
one, an unregistered one, and a registered one that raises. -/
def batchState : AgentState :=
  { messages := [.human "q", .ai "x"
      [⟨"get_current_datetime_info_tool", "", "a"⟩,
       ⟨"imaginary_tool", "z=1", "b"⟩,
       ⟨"add_time_delta_tool", "y=2", "c"⟩]],
    tool_iteration_count := 3, is_profiling := some true, username := none,
    start_time := none, end_time := none, agent_summary := none, plan := none,
    tools_missing := none, status := none }

theorem C7_tool_node_batch_witness :
    (tool_node batchOracle batchState).messages = batchState.messages ++
      [⟨"get_current_datetime_info_tool", "", "a"⟩,
       ⟨"imaginary_tool", "z=1", "b"⟩,
       ⟨"add_time_delta_tool", "y=2", "c"⟩].map
        (fun tc => Msg.tool (toolObservation batchOracle tc) tc.name tc.id) ∧
    (tool_node batchOracle batchState).tool_iteration_count = 3 + 1 ∧
    toolObservation batchOracle ⟨"imaginary_tool", "z=1", "b"⟩ =
      "ERROR: Tool '" ++ "imaginary_tool" ++ "' does not exist. " ++
      "Available tools are: " ++ availableToolNamesRepr ++ ". " ++
      "Please use one of the available tools or provide a text response instead." ∧
    toolObservation batchOracle ⟨"add_time_delta_tool", "y=2", "c"⟩ =
      "ERROR: Invalid arguments for tool '" ++ "add_time_delta_tool" ++ "': " ++
      "Unexpected argument y=2" ++ ". Args provided: " ++ "y=2" := by
  have h := C7_tool_node_batch batchOracle batchState "x"
    [⟨"get_current_datetime_info_tool", "", "a"⟩,
     ⟨"imaginary_tool", "z=1", "b"⟩,
     ⟨"add_time_delta_tool", "y=2", "c"⟩] rfl (by decide)
  exact ⟨h.1, h.2.1, h.2.2.1 ⟨"imaginary_tool", "z=1", "b"⟩ (by decide),
    h.2.2.2 ⟨"add_time_delta_tool", "y=2", "c"⟩ "Unexpected argument y=2" (by decide) rfl⟩

/-- A model stub whose metadata extraction returns null for all three
fields. -/
def nullMetaOracle : Oracle where
  classify := fun _ => true
  plan := fun _ => "p"
  analyze := fun _ => .allAvailable none
  agentStep := fun _ =>
    { reasoning := "", aiContent := "", toolCalls := [],
      metaUsername := none, metaStart := none, metaEnd := none }
  finalize := fun _ => { summary := "", status := .success }
  toolExec := fun _ _ => .ok ""

/-- A state in which username, start_time and end_time are already set. -/
def timesSetState : AgentState :=
  { messages := [.human "q"], tool_iteration_count := 0, is_profiling := some true,
    username := some "alice", start_time := some "2025-01-01T00:00:00",
    end_time := some "2025-01-02T00:00:00", agent_summary := none, plan := none,
    tools_missing := none, status := none }

/-- C2: Amended — the decision node's merge of `start_time`/`end_time` is
last-write-wins, not last-non-null-wins: `agent_llm` always returns the
freshly extracted values for both fields, so a null extraction overwrites
a previously set non-null value. -/
theorem C2_start_end_last_write (O : Oracle) (st : AgentState) :
    (agent_llm O st).start_time = (O.agentStep st.messages).metaStart ∧
    (agent_llm O st).end_time = (O.agentStep st.messages).metaEnd := ⟨rfl, rfl⟩

/-- C2 counterexample: a state with both times set, fed to a decision
step whose metadata extraction returns null, comes out with both reset
to null — refuting last-non-null-wins. -/
theorem C2_counterexample :
    timesSetState.start_time = some "2025-01-01T00:00:00" ∧
    timesSetState.end_time = some "2025-01-02T00:00:00" ∧
    (agent_llm nullMetaOracle timesSetState).start_time = none ∧
    (agent_llm nullMetaOracle timesSetState).end_time = none := ⟨rfl, rfl, rfl, rfl⟩

/-- A model stub whose metadata extraction returns username "bob". -/
def bobMetaOracle : Oracle where
  classify := fun _ => true
  plan := fun _ => "p"
  analyze := fun _ => .allAvailable none
  agentStep := fun _ =>
    { reasoning := "", aiContent := "", toolCalls := [],
      metaUsername := some "bob", metaStart := none, metaEnd := none }
  finalize := fun _ => { summary := "", status := .success }
  toolExec := fun _ _ => .ok ""

/-- A state whose username has been set to the empty string. -/
def emptyUserState : AgentState :=
  { messages := [.human "q"], tool_iteration_count := 0, is_profiling := some true,
    username := some "", start_time := none, end_time := none, agent_summary := none,
    plan := none, tools_missing := none, status := none }

/-- C8: Amended — the username guard is Python truthiness, not an
is-null check: a non-empty existing username is kept unchanged by every
later decision step, while a missing or empty-string username is
replaced by the freshly extracted value (possibly null). -/
theorem C8_username_guard (O : Oracle) (st : AgentState) :
    (∀ u : String, st.username = some u → u ≠ "" →
      (agent_llm O st).username = some u) ∧
    (st.username = none →
      (agent_llm O st).username = (O.agentStep st.messages).metaUsername) ∧
    (st.username = some "" →
      (agent_llm O st).username = (O.agentStep st.messages).metaUsername) := by
  have hdef : (agent_llm O st).username =
      pyOr st.username (O.agentStep st.messages).metaUsername := rfl
  refine ⟨?_, ?_, ?_⟩
  · intro u hu hne
    rw [hdef, hu]
    simp [pyOr, pyTruthy, hne]
  · intro hn
    rw [hdef, hn]
    rfl
  · intro he
    rw [hdef, he]
    rfl

theorem C8_username_guard_witness :
    (agent_llm bobMetaOracle timesSetState).username = some "alice" :=
  (C8_username_guard bobMetaOracle timesSetState).1 "alice" rfl (by decide)

/-- C8 counterexample: a username already set to the (non-null) empty
string is not kept — it is reset to null or replaced by the newly
extracted name, refuting "once set to a non-null value it is never
reset or replaced". -/
theorem C8_counterexample :
    emptyUserState.username = some "" ∧
    (agent_llm nullMetaOracle emptyUserState).username = none ∧
    (agent_llm bobMetaOracle emptyUserState).username = some "bob" := ⟨rfl, rfl, rfl⟩

/-- The application timezone instantiated as US/Eastern standard time
(UTC-05:00, abbreviation "EST"). -/
def estTz : Tz := { offsetMinutes := -300, tzAbbrev := "EST" }

/-- Modelled from the spec's words, for comparison with
`format_display`: "trailing zero fractional digits and a bare trailing
decimal point are stripped" — the stripping applies to the fractional
seconds before the timezone abbreviation is appended. -/
def format_display_specRule (tz : Tz) (dt : PyDateTime)
    (includeMicroseconds : Bool) : String :=
  if includeMicroseconds then
    String.mk (rstripChars ['.'] (rstripChars ['0'] (
      pad4 dt.year ++ ['-'] ++ pad2 dt.month ++ ['-'] ++ pad2 dt.day ++ [' '] ++
      pad2 dt.hour ++ [':'] ++ pad2 dt.minute ++ [':'] ++ pad2 dt.second ++
      ['.'] ++ pad6 dt.microsecond)) ++ [' '] ++ tz.tzAbbrev.data)
  else
    String.mk (strftimeChars tz dt false)

/-- C9: The code applies `.rstrip("0").rstrip(".")` to the full strftime
output, AFTER the timezone abbreviation — so for any abbreviation not
ending in '0' or '.', trailing zero fractional digits are never
stripped, contradicting the stripping the code's own comment and the
spec describe: with abbreviation "EST", ".500000" stays ".500000"
(spec: ".5") and ".000000" stays in full (spec: fraction and point
removed). -/
theorem C9_format_display_keeps_zeros :
    format_display estTz
      { year := 2024, month := 1, day := 2, hour := 3, minute := 4, second := 5,
        microsecond := 500000, offsetMinutes := some (-300) } true =
      "2024-01-02 03:04:05.500000 EST" ∧
    format_display estTz
      { year := 2024, month := 1, day := 2, hour := 3, minute := 4, second := 5,
        microsecond := 0, offsetMinutes := some (-300) } true =
      "2024-01-02 03:04:05.000000 EST" ∧
    format_display_specRule estTz
      { year := 2024, month := 1, day := 2, hour := 3, minute := 4, second := 5,
        microsecond := 500000, offsetMinutes := some (-300) } true =
      "2024-01-02 03:04:05.5 EST" ∧
    format_display_specRule estTz
      { year := 2024, month := 1, day := 2, hour := 3, minute := 4, second := 5,
        microsecond := 0, offsetMinutes := some (-300) } true =
      "2024-01-02 03:04:05 EST" ∧
    ("2024-01-02 03:04:05.500000 EST" : String) ≠ "2024-01-02 03:04:05.5 EST" ∧
    ("2024-01-02 03:04:05.000000 EST" : String) ≠ "2024-01-02 03:04:05 EST" :=
  ⟨rfl, rfl, rfl, rfl, by decide, by decide⟩

/-- `AgentOutputState` of `src/app/schemas.py`: the response schema of
the non-streaming query operation; exactly five declared fields, with
pydantic defaults. -/
structure AgentOutputState where
  username : Option String := none
  start_time : Option String := none
  end_time : Option String := none
  agent_summary : String := ""
  messages : List Msg := []
  deriving Repr, DecidableEq

/-- The keys of `AgentOutputState.model_dump()`: one per declared field,
in declaration order. -/
def agentOutputKeys : List String :=
  ["username", "start_time", "end_time", "agent_summary", "messages"]

/-- `AgentOutputState(**final_state)` in the non-streaming branch of
`query` in `src/app/main.py`: pydantic keeps the declared fields, drops
the remaining state channels, and substitutes the `""` default when the
summary channel is unset. -/
def queryPayload (final : AgentState) : AgentOutputState :=
  { username := final.username, start_time := final.start_time,
    end_time := final.end_time,
    agent_summary := final.agent_summary.getD "",
    messages := final.messages }

/-- C10: Amended — the non-streaming query returns a payload with
exactly the five fields username, start_time, end_time, agent_summary
and messages, carried over from the final state; the internal `status`
value is not part of the payload schema. -/
theorem C10_payload_fields :
    agentOutputKeys =
      ["username", "start_time", "end_time", "agent_summary", "messages"] ∧
    "status" ∉ agentOutputKeys ∧
    ∀ final : AgentState,
      (queryPayload final).username = final.username ∧
      (queryPayload final).start_time = final.start_time ∧
      (queryPayload final).end_time = final.end_time ∧
      (queryPayload final).agent_summary = final.agent_summary.getD "" ∧
      (queryPayload final).messages = final.messages :=
  ⟨rfl, by decide, fun _ => ⟨rfl, rfl, rfl, rfl, rfl⟩⟩

/-- C10 counterexample: `status` is not among the payload's keys — the
returned structure has five fields, not the six the claim lists. -/
theorem C10_counterexample :
    agentOutputKeys.contains "status" = false ∧ agentOutputKeys.length = 5 := by decide

/-- C3: Amended — the add/subtract round trip holds at the level of the
parsed timestamp whenever the addition succeeds: for fixed-size units
(and, with `replace(year=...)` succeeding, for year units) subtracting
the same amount from the add tool's output reproduces exactly the
timestamp parsed from `t`, rendered in the app timezone; and +1 year
applied to 2024-02-29 clamps to 2025-02-28 rather than failing.  (The
unconditional round trip of the original claim fails at the year-9999
overflow boundary.) -/
theorem C3_add_subtract_roundtrip :
    (∀ tz : Tz, tz.offsetMinutes.natAbs < 1440 →
      ∀ (t : String) (n : Int) (u : String) (uu : Int),
      unitMicros (pyLower u) = some uu →
      ∀ dt0 : PyDateTime, parse_to_timezone tz t = .ok dt0 →
      ∀ s : String, add_time_delta_tool tz t n u = .ok s →
      subtract_time_delta_tool tz s n u =
        .ok ("Time after subtracting " ++ intRepStr n ++ " " ++
          (if n.natAbs ≠ 1 then u else String.mk (rstripChars ['s'] u.data)) ++ ": " ++
          pyIsoformatMicro dt0)) ∧
    (∀ tz : Tz, tz.offsetMinutes.natAbs < 1440 →
      ∀ (t : String) (n : Int) (u : String),
      (pyLower u = "year" ∨ pyLower u = "years") →
      ∀ dt0 dt1 : PyDateTime, parse_to_timezone tz t = .ok dt0 →
      dtReplaceYear dt0 ((dt0.year : Int) + n) = .ok dt1 →
      ∀ s : String, add_time_delta_tool tz t n u = .ok s →
      subtract_time_delta_tool tz s n u =
        .ok ("Time after subtracting " ++ intRepStr n ++ " " ++
          (if n.natAbs ≠ 1 then u else String.mk (rstripChars ['s'] u.data)) ++ ": " ++
          pyIsoformatMicro dt0)) ∧
    add_time_delta_tool estTz "2024-02-29T10:00:00" 1 "years" =
      .ok "Time after adding 1 year: 2025-02-28T10:00:00.000000-05:00" := by
  refine ⟨?_, ?_, ?_⟩
  · intro tz hbnd t n u uu hu dt0 hp s hs
    exact add_subtract_roundtrip_fixed tz hbnd t n u uu hu dt0 hp s hs
  · intro tz hbnd t n u hul dt0 dt1 hp hrep s hs
    exact add_subtract_roundtrip_years tz hbnd t n u hul dt0 dt1 hp hrep s hs
  · set_option maxRecDepth 10000 in rfl

set_option maxRecDepth 10000 in
theorem C3_add_subtract_roundtrip_witness :
    subtract_time_delta_tool estTz
      "Time after adding -3 days: 2025-01-12T10:00:00.000000-05:00" (-3) "days" =
      .ok ("Time after subtracting " ++ intRepStr (-3) ++ " " ++
        (if (-3 : Int).natAbs ≠ 1 then "days"
         else String.mk (rstripChars ['s'] ("days" : String).data)) ++ ": " ++
        pyIsoformatMicro
          { year := 2025, month := 1, day := 15, hour := 10, minute := 0,
            second := 0, microsecond := 0, offsetMinutes := some (-300) }) :=
  C3_add_subtract_roundtrip.1 estTz (by decide) "2025-01-15T10:00:00-05:00" (-3) "days"
    86400000000 rfl
    { year := 2025, month := 1, day := 15, hour := 10, minute := 0,
      second := 0, microsecond := 0, offsetMinutes := some (-300) } rfl
    "Time after adding -3 days: 2025-01-12T10:00:00.000000-05:00" rfl

set_option maxRecDepth 10000 in
/-- C3 counterexample: at the upper calendar boundary the round trip does
not hold — adding one day to 9999-12-31 raises OverflowError, so
`subtractDelta(addDelta(t, n, u), n, u)` has no value to round-trip. -/
theorem C3_counterexample :
    add_time_delta_tool estTz "9999-12-31T00:00:00" 1 "days" =
      .error .overflowError := rfl

/-- Modelled from the spec's words, for comparison with
`parse_to_timezone`: parse the substring after the LAST `": "`
occurrence (the spec's annotated-string rule). -/
def parse_to_timezone_specLast (tz : Tz) (timeStr : String) : Except PyErr PyDateTime :=
  match pyFromisoformat (replaceZ (match afterLastSep timeStr.data with
    | some r => r
    | none => timeStr.data)) with
  | none => .error (.valueError "Invalid isoformat string")
  | some dt =>
    match dt.offsetMinutes with
    | none => .ok { dt with offsetMinutes := some tz.offsetMinutes }
    | some _ => dtAstimezone dt tz.offsetMinutes

/-- C4: Amended — `_parse_to_timezone` parses the substring after the
FIRST `": "` occurrence (`split(": ", 1)[-1]`), not the last; an input
without the separator is parsed whole, and the parse fails with
ValueError when the chosen remainder is not valid ISO-8601.  For the
single-separator annotated form of the claim the result coincides with
parsing the bare timestamp. -/
theorem C4_parse_after_first_sep :
    (∀ (tz : Tz) (s : String) (r : List Char), afterFirstSep s.data = some r →
      parse_to_timezone tz s =
        match pyFromisoformat (replaceZ r) with
        | none => .error (.valueError "Invalid isoformat string")
        | some dt =>
          match dt.offsetMinutes with
          | none => .ok { dt with offsetMinutes := some tz.offsetMinutes }
          | some _ => dtAstimezone dt tz.offsetMinutes) ∧
    (∀ (tz : Tz) (s : String), afterFirstSep s.data = none →
      parse_to_timezone tz s =
        match pyFromisoformat (replaceZ s.data) with
        | none => .error (.valueError "Invalid isoformat string")
        | some dt =>
          match dt.offsetMinutes with
          | none => .ok { dt with offsetMinutes := some tz.offsetMinutes }
          | some _ => dtAstimezone dt tz.offsetMinutes) ∧
    parse_to_timezone estTz "Current time: 2025-11-04T11:57:20.161562-05:00" =
      parse_to_timezone estTz "2025-11-04T11:57:20.161562-05:00" := by
  refine ⟨?_, ?_, ?_⟩
  · intro tz s r hsep
    unfold parse_to_timezone
    rw [hsep]
  · intro tz s hsep
    unfold parse_to_timezone
    rw [hsep]
  · set_option maxRecDepth 10000 in rfl

set_option maxRecDepth 10000 in
theorem C4_parse_after_first_sep_witness :
    parse_to_timezone estTz "Note: 2025-01-01T00:00:00" =
      match pyFromisoformat (replaceZ ("2025-01-01T00:00:00" : String).data) with
      | none => .error (.valueError "Invalid isoformat string")
      | some dt =>
        match dt.offsetMinutes with
        | none => .ok { dt with offsetMinutes := some estTz.offsetMinutes }
        | some _ => dtAstimezone dt estTz.offsetMinutes :=
  C4_parse_after_first_sep.1 estTz "Note: 2025-01-01T00:00:00"
    ("2025-01-01T00:00:00" : String).data rfl

set_option maxRecDepth 10000 in
/-- C4 counterexample: on an input with two `": "` separators the code
splits at the first and fails, while the spec's after-the-LAST rule
parses the trailing timestamp successfully. -/
theorem C4_counterexample :
    parse_to_timezone estTz "Start time: Current time: 2025-11-04T11:57:20.161562-05:00" =
      .error (.valueError "Invalid isoformat string") ∧
    parse_to_timezone_specLast estTz
        "Start time: Current time: 2025-11-04T11:57:20.161562-05:00" =
      .ok { year := 2025, month := 11, day := 4, hour := 11, minute := 57, second := 20,
            microsecond := 161562, offsetMinutes := some (-300) } := ⟨rfl, rfl⟩

/-- C5: Amended — the tools accept exactly the units {seconds, minutes,
hours, days, weeks, year, years} case-insensitively (singular "year" is
accepted too); for any other unit string neither tool raises: the add
tool returns the UnsupportedUnitError text as an ordinary result string,
and the subtract tool does not surface that error — it wraps the tail of
the error message after its last `": "` in a "Time after subtracting"
result. -/
theorem C5_unsupported_units (tz : Tz) (t : String) (n : Int) (u : String)
    (dt0 : PyDateTime) (hp : parse_to_timezone tz t = .ok dt0)
    (hnone : unitMicros (pyLower u) = none)
    (hy : ¬(pyLower u = "year" ∨ pyLower u = "years")) :
    add_time_delta_tool tz t n u = .ok ("Error: Unsupported unit '" ++ u ++
      "'. Supported units are: seconds, minutes, hours, days, weeks, years.") ∧
    subtract_time_delta_tool tz t n u =
      .ok ("Time after subtracting " ++ intRepStr n ++ " " ++
        (if n.natAbs ≠ 1 then u else String.mk (rstripChars ['s'] u.data)) ++ ": " ++
        "seconds, minutes, hours, days, weeks, years.") := by
  have hadd : ∀ m : Int, add_time_delta_tool tz t m u =
      .ok ("Error: Unsupported unit '" ++ u ++
        "'. Supported units are: seconds, minutes, hours, days, weeks, years.") := by
    intro m
    unfold add_time_delta_tool
    rw [hp, ebind_ok]
    simp only [hnone]
    rw [if_neg hy]
    rfl
  refine ⟨hadd n, ?_⟩
  unfold subtract_time_delta_tool
  rw [hadd (-n)]
  simp only [ebind_ok, exceptBind_ok]
  have hdata : ("Error: Unsupported unit '" ++ u ++
      "'. Supported units are: seconds, minutes, hours, days, weeks, years.").data =
      (("Error: Unsupported unit '" : String).data ++ u.data ++
        ("'. Supported units are" : String).data) ++
      (':' :: (' ' :: ("seconds, minutes, hours, days, weeks, years." : String).data)) := by
    rw [String.data_append, String.data_append]
    rw [show ("'. Supported units are: seconds, minutes, hours, days, weeks, years." :
        String).data =
      ("'. Supported units are" : String).data ++
        (':' :: (' ' :: ("seconds, minutes, hours, days, weeks, years." : String).data))
      from rfl]
    simp [List.append_assoc]
  have hlast : afterLastSep ("Error: Unsupported unit '" ++ u ++
      "'. Supported units are: seconds, minutes, hours, days, weeks, years.").data =
      some (("seconds, minutes, hours, days, weeks, years." : String).data) := by
    rw [hdata]
    exact afterLastSep_append _ _ (by decide)
  simp only [hlast]
  rfl

set_option maxRecDepth 10000 in
theorem C5_unsupported_units_witness :
    add_time_delta_tool estTz "2025-01-15T10:00:00-05:00" 2 "decades" =
      .ok ("Error: Unsupported unit '" ++ "decades" ++
        "'. Supported units are: seconds, minutes, hours, days, weeks, years.") ∧
    subtract_time_delta_tool estTz "2025-01-15T10:00:00-05:00" 2 "decades" =
      .ok ("Time after subtracting " ++ intRepStr 2 ++ " " ++
        (if (2 : Int).natAbs ≠ 1 then "decades"
         else String.mk (rstripChars ['s'] ("decades" : String).data)) ++ ": " ++
        "seconds, minutes, hours, days, weeks, years.") :=
  C5_unsupported_units estTz "2025-01-15T10:00:00-05:00" 2 "decades"
    { year := 2025, month := 1, day := 15, hour := 10, minute := 0,
      second := 0, microsecond := 0, offsetMinutes := some (-300) }
    rfl rfl (by decide)

set_option maxRecDepth 10000 in
/-- C5 counterexample: the singular unit "year", outside the claimed
unit set, is accepted and performs year arithmetic; and the subtract
tool on unsupported unit "fortnights" does not surface the error — it
returns a success-looking "Time after subtracting" string whose
timestamp slot holds the tail of the error message. -/
theorem C5_counterexample :
    add_time_delta_tool estTz "2025-01-15T10:00:00-05:00" 1 "year" =
      .ok "Time after adding 1 year: 2026-01-15T10:00:00.000000-05:00" ∧
    subtract_time_delta_tool estTz "2025-01-15T10:00:00-05:00" 5 "fortnights" =
      .ok "Time after subtracting 5 fortnights: seconds, minutes, hours, days, weeks, years." :=
  ⟨rfl, rfl⟩
